
import Mathlib

/-!
Verification of the migration-index fixing scripts of this repository:
`app/backend/scripts/fix_migration_indexes.py` (one-shot whole-file patcher) and
`app/backend/scripts/fix_all_migration_indexes.py` (iterative repair loop).

Files are modelled as `List Char`; each Python function is embedded as a
computable Lean definition over `List Char`, faithful to the source.
-/

/-- Characters of a string literal; files and lines are modelled as `List Char`. -/
def str (s : String) : List Char := s.toList

/-- A SQL-identifier character (letter, digit or underscore).  Used only in
hypotheses about well-formed index/table/column names, never in the embedding
of the code itself. -/
def isIdentChar (c : Char) : Bool := c.isAlphanum || c == '_'

/-- Match a literal `pat` at the start of `s`; on success return the rest.
This is the building block for embedding anchored regex literals. -/
def expect (pat s : List Char) : Option (List Char) :=
  if pat.isPrefixOf s then some (s.drop pat.length) else none

/-- Python's substring test `pat in s`, on `List Char`. -/
def containsSub (pat : List Char) : List Char → Bool
  | [] => pat.isPrefixOf []
  | c :: t => pat.isPrefixOf (c :: t) || containsSub pat (t : List Char)

/-- Python's `", ".join`-style join with a separator. -/
def joinSep (sep : List Char) : List (List Char) → List Char
  | [] => []
  | [x] => x
  | x :: y :: xs => x ++ sep ++ joinSep sep (y :: xs)

/-- Concatenation of a list of strings (`"".join` / `writelines`). -/
def joinAll : List (List Char) → List Char
  | [] => []
  | x :: xs => x ++ joinAll xs

/-- Python's `str.split(',')`: splits on every comma, keeping empty pieces;
`"".split(',') = [""]`. -/
def splitComma : List Char → List (List Char)
  | [] => [[]]
  | c :: t =>
    if c = ',' then [] :: splitComma t
    else
      match splitComma t with
      | [] => [[c]]
      | l :: ls => (c :: l) :: ls

/-- Drop a trailing run of characters satisfying `p`. -/
def dropTrailingWhile (p : Char → Bool) (l : List Char) : List Char :=
  (l.reverse.dropWhile p).reverse

/-- The whitespace set of Python's `str.strip()` (ASCII part, which is all
that can occur in the migration files handled here). -/
def isPySpace (c : Char) : Bool :=
  c == ' ' || c == '\t' || c == '\n' || c == '\r' || c == '\x0b' || c == '\x0c'

/-- Python `col.strip()`. -/
def stripWS (l : List Char) : List Char :=
  dropTrailingWhile isPySpace (l.dropWhile isPySpace)

/-- Python `col.strip('"')`. -/
def stripQuotes (l : List Char) : List Char :=
  dropTrailingWhile (· == '"') (l.dropWhile (· == '"'))

/-!
## Embedding of `fix_migration_indexes.py`

`fix_index_creation` (lines 10-52) matches the anchored regex

  `CREATE INDEX IF NOT EXISTS "([^"]+)" ON "([^"]+)" USING btree \(([^)]+)\);--> statement-breakpoint`

with `re.match` (prefix match, arbitrary trailing text allowed).  Each
`([^"]+)` / `([^)]+)` group is a greedy nonempty run of characters other than
the quote / closing parenthesis, followed by a literal occurrence of that very
character, so greedy matching is deterministic: the group is exactly the
maximal such run.  `parseCreateIndex` implements that deterministic reading.
-/

/-- The regex match of `fix_index_creation`: on success returns the three
captured groups (index name, table name, columns text). -/
def parseCreateIndex (line : List Char) : Option (List Char × List Char × List Char) :=
  match expect (str "CREATE INDEX IF NOT EXISTS \"") line with
  | none => none
  | some r1 =>
    if (r1.takeWhile (· != '"')).isEmpty then none else
    match expect (str "\" ON \"") (r1.dropWhile (· != '"')) with
    | none => none
    | some r2 =>
      if (r2.takeWhile (· != '"')).isEmpty then none else
      match expect (str "\" USING btree (") (r2.dropWhile (· != '"')) with
      | none => none
      | some r3 =>
        if (r3.takeWhile (· != ')')).isEmpty then none else
        match expect (str ");--> statement-breakpoint") (r3.dropWhile (· != ')')) with
        | none => none
        | some _ =>
          some (r1.takeWhile (· != '"'), r2.takeWhile (· != '"'), r3.takeWhile (· != ')'))

/-- Lines 25-30 of `fix_migration_indexes.py`:
`[col.strip().strip('"') for col in columns.split(',')]`. -/
def columnList (columns : List Char) : List (List Char) :=
  (splitComma columns).map (fun col => stripQuotes (stripWS col))

/-- Lines 28-32: one `column_name = '<col>'` condition per column, joined by
`" AND "`. -/
def whereClause (cols : List (List Char)) : List Char :=
  joinSep (str " AND ") (cols.map (fun col => str "column_name = '" ++ col ++ str "'"))

/-- Lines 34-48: the `DO $$ ... END$$` conditional block produced for a matched
index statement (an f-string with the three captures substituted). -/
def blockOf (indexName tableName columns : List Char) : List Char :=
  str "DO $$\nBEGIN\n    IF EXISTS (\n        SELECT 1\n        FROM information_schema.columns\n        WHERE table_name = '"
    ++ tableName
    ++ str "'\n        AND ("
    ++ whereClause (columnList columns)
    ++ str ")\n    ) THEN\n        CREATE INDEX IF NOT EXISTS \""
    ++ indexName
    ++ str "\"\n        ON \""
    ++ tableName
    ++ str "\" USING btree ("
    ++ columns
    ++ str ");\n        RAISE NOTICE 'Created index "
    ++ indexName
    ++ str "';\n    ELSE\n        RAISE NOTICE 'Column(s) do not exist in "
    ++ tableName
    ++ str " table, skipping index creation';\n    END IF;\nEND$$;--> statement-breakpoint"

/-- `fix_index_creation` (lines 10-52): rewrite a matched `CREATE INDEX` line
into the conditional block; return every other line unchanged. -/
def fix_index_creation (line : List Char) : List Char :=
  match parseCreateIndex line with
  | some (i, t, cs) => blockOf i t cs
  | none => line

/-!
## Embedding of `fix_all_migration_indexes.py`

`extract_error_info` (lines 21-33) applies `re.search` with `re.DOTALL` and

  `column "([^"]+)" does not exist.*?CREATE INDEX IF NOT EXISTS "([^"]+)" ON "([^"]+)" USING btree \("([^"]+)"\)`

and returns groups 1-3 (column, index, table); group 4 is captured but unused.
Each `([^"]+)` is a greedy nonempty run of non-quote characters followed by a
literal quote, hence deterministic; the lazy `.*?` (with DOTALL) matches the
shortest gap, i.e. the tail pattern is matched at the earliest possible
position; `re.search` takes the leftmost starting position.  The three
functions below implement exactly that deterministic strategy.
-/

/-- The tail pattern `CREATE INDEX IF NOT EXISTS "..." ON "..." USING btree ("...")`
matched at the start of `s`; returns (index name, table name).  The fourth
group (the column inside `btree`) is captured by the regex but dropped by the
code. -/
def matchTail (s : List Char) : Option (List Char × List Char) :=
  match expect (str "CREATE INDEX IF NOT EXISTS \"") s with
  | none => none
  | some r1 =>
    if (r1.takeWhile (· != '"')).isEmpty then none else
    match expect (str "\" ON \"") (r1.dropWhile (· != '"')) with
    | none => none
    | some r2 =>
      if (r2.takeWhile (· != '"')).isEmpty then none else
      match expect (str "\" USING btree (\"") (r2.dropWhile (· != '"')) with
      | none => none
      | some r3 =>
        if (r3.takeWhile (· != '"')).isEmpty then none else
        match expect (str "\")") (r3.dropWhile (· != '"')) with
        | none => none
        | some _ => some (r1.takeWhile (· != '"'), r2.takeWhile (· != '"'))

/-- The lazy `.*?`: the tail pattern at the earliest position in `s`. -/
def searchTail : List Char → Option (List Char × List Char)
  | [] => none
  | c :: t =>
    match matchTail (c :: t) with
    | some r => some r
    | none => searchTail t

/-- The whole error pattern anchored at the start of `s`: returns
(column, index, table). -/
def matchErrAt (s : List Char) : Option (List Char × List Char × List Char) :=
  match expect (str "column \"") s with
  | none => none
  | some r1 =>
    if (r1.takeWhile (· != '"')).isEmpty then none else
    match expect (str "\" does not exist") (r1.dropWhile (· != '"')) with
    | none => none
    | some r2 =>
      match searchTail r2 with
      | none => none
      | some (i, t) => some (r1.takeWhile (· != '"'), i, t)

/-- `extract_error_info` (lines 21-33): leftmost `re.search`; returns
`(column, index, table)` on a match, and `(None, None, None)` (modelled as
`none`) otherwise. -/
def extract_error_info : List Char → Option (List Char × List Char × List Char)
  | [] => none
  | c :: t =>
    match matchErrAt (c :: t) with
    | some r => some r
    | none => extract_error_info t

/-- Line 43 of `fix_all_migration_indexes.py`: the substitution pattern.  All
three names pass through `re.escape`, and the only regex metacharacters in the
template are the escaped parentheses, so the pattern matches exactly this
literal string. -/
def patOf (indexName tableName columnName : List Char) : List Char :=
  str "CREATE INDEX IF NOT EXISTS \"" ++ indexName ++ str "\" ON \"" ++ tableName
    ++ str "\" USING btree (\"" ++ columnName ++ str "\");--> statement-breakpoint"

/-- Lines 46-60: the replacement block of the iterative fixer (single-column,
with its own ELSE notice text). -/
def replOf (indexName tableName columnName : List Char) : List Char :=
  str "DO $$\nBEGIN\n    IF EXISTS (\n        SELECT 1\n        FROM information_schema.columns\n        WHERE table_name = '"
    ++ tableName
    ++ str "'\n        AND column_name = '"
    ++ columnName
    ++ str "'\n    ) THEN\n        CREATE INDEX IF NOT EXISTS \""
    ++ indexName
    ++ str "\"\n        ON \""
    ++ tableName
    ++ str "\" USING btree (\""
    ++ columnName
    ++ str "\");\n        RAISE NOTICE 'Created index "
    ++ indexName
    ++ str "';\n    ELSE\n        RAISE NOTICE 'Column "
    ++ columnName
    ++ str " does not exist in "
    ++ tableName
    ++ str " table, skipping index creation';\n    END IF;\nEND$$;--> statement-breakpoint"

/-- `re.sub` with a fully literal pattern: scan left to right; at each
position, if the pattern matches there, emit the replacement and resume after
the match (leftmost, non-overlapping, unbounded), else emit the character.
The `p = []` guard is irrelevant for the nonempty patterns used here. -/
def replaceAll (p r : List Char) (s : List Char) : List Char :=
  if _hps : p ≠ [] ∧ p.isPrefixOf s then
    r ++ replaceAll p r (s.drop p.length)
  else
    match s with
    | [] => []
    | c :: t => c :: replaceAll p r t
termination_by s.length
decreasing_by
  · have hpre : p <+: s := List.isPrefixOf_iff_prefix.mp _hps.2
    have hlen : p.length ≤ s.length := hpre.length_le
    have hp0 : 0 < p.length := List.length_pos.mpr _hps.1
    simp only [List.length_drop]
    omega
  · simp

/-- The errors `re`'s replacement-template compiler
(`re._parser.parse_template`) can raise, by kind (the message text is not
modelled).  `unknownGroupName` is CPython's `IndexError`; the rest are
`re.error`.  All of them escape `fix_index_in_migration` uncaught. -/
inductive TemplateError where
  | badEscapeEnd
  | missingLt
  | missingGroupName
  | unterminatedName
  | badCharInGroupName
  | unknownGroupName
  | invalidGroupReference (n : Nat)
  | badEscape (c : Char)
  | octalOutOfRange

/-- One piece of a parsed replacement template: a literal chunk, or a
reference to a capture group (`0` is the whole match). -/
inductive TChunk where
  | lit (s : List Char)
  | group (n : Nat)

/-- ASCII reading of Python's `str.isidentifier`, as `parse_template` applies
it to a `\g<...>` group name.  (CPython also accepts non-ASCII identifier
characters; such a name fails the `int` parse below as well, so both the
model and the original raise — merely with different messages — and no
behaviour relevant here diverges.) -/
def pyIdentifier : List Char → Bool
  | [] => false
  | c :: t => (c.isAlpha || c == '_') && t.all (fun d => d.isAlphanum || d == '_')

/-- Tail of a digit run as `int` accepts it: underscores only singly and
followed by a digit. -/
def digitsTail : List Char → Bool
  | [] => true
  | '_' :: c :: t => c.isDigit && digitsTail t
  | c :: t => c.isDigit && digitsTail t

/-- A nonempty digit run, underscores only between digits. -/
def digitsOk : List Char → Bool
  | [] => false
  | c :: t => c.isDigit && digitsTail t

/-- Value of a digit run, underscores skipped. -/
def digitsVal (s : List Char) : Nat :=
  List.foldl (fun a c => 10 * a + (c.toNat - 48)) 0 (s.filter (· != '_'))

/-- Python `int(name)` as `parse_template` uses it on a `\g<...>` group name:
surrounding whitespace stripped, an optional sign accepted; a negative result
raises `ValueError` right after, so with a minus sign only `-0` gets through. -/
def pyIntNonNeg? (s : List Char) : Option Nat :=
  match dropTrailingWhile (·.isWhitespace) (s.dropWhile (·.isWhitespace)) with
  | '+' :: t => if digitsOk t then some (digitsVal t) else none
  | '-' :: t => if digitsOk t && digitsVal t == 0 then some 0 else none
  | t => if digitsOk t then some (digitsVal t) else none

/-- Resolution of a `\g<name>` reference against this script's substitution
pattern, which has no capture groups and no named groups: an
identifier-shaped name is unknown; anything else goes through `int`, and only
the whole-match index `0` is in range. -/
def parseGroupName (name : List Char) : Except TemplateError Nat :=
  if pyIdentifier name then .error .unknownGroupName
  else
    match pyIntNonNeg? name with
    | some n => .ok n
    | none => .error .badCharInGroupName

/-- An octal digit (`'0'`-`'7'`). -/
def isOct (c : Char) : Bool := 48 ≤ c.toNat && c.toNat ≤ 55

/-- Value of a digit character. -/
def octVal (c : Char) : Nat := c.toNat - 48

/-- `re._parser.parse_template` over a replacement string, specialised to
this script's pattern (zero capture groups): literal text; `\g<...>` and
`\1`-style group references (any index above `0` is out of range here and
raises `invalid group reference`); `\0dd` and `\ddd` octal escapes; the
ASCII-letter escapes `\a \b \f \n \r \t \v` and `\\`; an unknown ASCII-letter
escape raises `bad escape`; any other escaped character is kept literally
with its backslash; a trailing lone backslash raises.  Escape pairing inside
a `\g<...>` name is simplified to a scan for `>`: every spelling this
affects raises in CPython too.  The fuel only bounds the recursion — each
step consumes at least one character, so `length + 1` is never exhausted. -/
def parseTemplateF : Nat → List Char → Except TemplateError (List TChunk)
  | 0, _ => .ok []
  | fuel + 1, s =>
    match s with
    | [] => .ok []
    | '\\' :: rest =>
      match rest with
      | [] => .error .badEscapeEnd
      | 'g' :: t =>
        match t with
        | '<' :: u =>
          match u.dropWhile (· != '>') with
          | [] => .error .unterminatedName
          | _ :: v =>
            if (u.takeWhile (· != '>')).isEmpty then .error .missingGroupName
            else
              match parseGroupName (u.takeWhile (· != '>')) with
              | .error e => .error e
              | .ok 0 => (parseTemplateF fuel v).map (fun cs => .group 0 :: cs)
              | .ok (n + 1) => .error (.invalidGroupReference (n + 1))
        | _ => .error .missingLt
      | '0' :: t =>
        match t with
        | d1 :: t' =>
          if isOct d1 then
            match t' with
            | d2 :: t'' =>
              if isOct d2 then
                (parseTemplateF fuel t'').map
                  (fun cs => .lit [Char.ofNat (8 * octVal d1 + octVal d2)] :: cs)
              else
                (parseTemplateF fuel t').map
                  (fun cs => .lit [Char.ofNat (octVal d1)] :: cs)
            | [] => .ok [.lit [Char.ofNat (octVal d1)]]
          else (parseTemplateF fuel t).map (fun cs => .lit [Char.ofNat 0] :: cs)
        | [] => .ok [.lit [Char.ofNat 0]]
      | c :: t =>
        if c.isDigit then
          match t with
          | d2 :: t' =>
            if d2.isDigit then
              if isOct c && isOct d2 then
                match t' with
                | d3 :: t'' =>
                  if isOct d3 then
                    if 64 * octVal c + 8 * octVal d2 + octVal d3 ≤ 255 then
                      (parseTemplateF fuel t'').map (fun cs =>
                        .lit [Char.ofNat (64 * octVal c + 8 * octVal d2 + octVal d3)]
                          :: cs)
                    else .error .octalOutOfRange
                  else .error (.invalidGroupReference (10 * octVal c + octVal d2))
                | [] => .error (.invalidGroupReference (10 * octVal c + octVal d2))
              else .error (.invalidGroupReference (10 * octVal c + octVal d2))
            else .error (.invalidGroupReference (octVal c))
          | [] => .error (.invalidGroupReference (octVal c))
        else if c == 'a' then
          (parseTemplateF fuel t).map (fun cs => .lit [Char.ofNat 7] :: cs)
        else if c == 'b' then
          (parseTemplateF fuel t).map (fun cs => .lit [Char.ofNat 8] :: cs)
        else if c == 'f' then
          (parseTemplateF fuel t).map (fun cs => .lit [Char.ofNat 12] :: cs)
        else if c == 'n' then
          (parseTemplateF fuel t).map (fun cs => .lit [Char.ofNat 10] :: cs)
        else if c == 'r' then
          (parseTemplateF fuel t).map (fun cs => .lit [Char.ofNat 13] :: cs)
        else if c == 't' then
          (parseTemplateF fuel t).map (fun cs => .lit [Char.ofNat 9] :: cs)
        else if c == 'v' then
          (parseTemplateF fuel t).map (fun cs => .lit [Char.ofNat 11] :: cs)
        else if c == '\\' then
          (parseTemplateF fuel t).map (fun cs => .lit ['\\'] :: cs)
        else if c.isAlpha then .error (.badEscape c)
        else (parseTemplateF fuel t).map (fun cs => .lit ['\\', c] :: cs)
    | c :: rest => (parseTemplateF fuel rest).map (fun cs => .lit [c] :: cs)

/-- Template compilation as `Pattern.sub` performs it when the replacement
contains a backslash: the template is parsed once, before any match is
attempted, so a bad template raises even when the pattern does not occur in
the subject string. -/
def parse_template (repl : List Char) : Except TemplateError (List TChunk) :=
  parseTemplateF (repl.length + 1) repl

/-- Expansion of a parsed template at a match.  This script's pattern is
fully literal, so the only group reference that can survive parsing, the
whole-match group `0`, expands to the pattern text itself. -/
def renderTemplate (matched : List Char) : List TChunk → List Char
  | [] => []
  | .lit s :: rest => s ++ renderTemplate matched rest
  | .group _ :: rest => matched ++ renderTemplate matched rest

/-- Result of one successful call of `fix_index_in_migration` (lines 35-69):
the new file content, plus whether the file was written back and the
`Fixed index ...` message printed (both of which the code then does
unconditionally). -/
structure FixFileResult where
  content : List Char
  wroteFile : Bool
  printedFixed : Bool

/-- `fix_index_in_migration` (lines 35-69).  Argument order as in the source:
(table, column, index).  When the replacement contains no backslash, `re.sub`
takes its literal fast path; otherwise the replacement is compiled as a
template first, and a bad escape or group reference in it (possible, since
the interpolated names come from `[^"]+` captures) raises there — before the
file is written or the message printed (`.error`).  On success every
occurrence of the (fully literal) pattern is replaced by the expanded
template, and the file write and the `Fixed index ...` print happen
unconditionally. -/
def fix_index_in_migration (tableName columnName indexName content : List Char) :
    Except TemplateError FixFileResult :=
  if '\\' ∈ replOf indexName tableName columnName then
    match parse_template (replOf indexName tableName columnName) with
    | .error e => .error e
    | .ok tmpl =>
      .ok { content := replaceAll (patOf indexName tableName columnName)
              (renderTemplate (patOf indexName tableName columnName) tmpl) content
            wroteFile := true
            printedFixed := true }
  else
    .ok { content := replaceAll (patOf indexName tableName columnName)
            (replOf indexName tableName columnName) content
          wroteFile := true
          printedFixed := true }

/-!
## The iterative repair loop (`main` of `fix_all_migration_indexes.py`, lines 71-106)

`run_migration` invokes an external process; its combined stdout+stderr text is
the only part of the environment the loop inspects, so it is modelled as an
oracle `outputs : Nat → List Char` giving the captured output of each attempt
(attempts are numbered from 1, as in the script's `attempt` counter).  The
migration file rewritten by `fix_index_in_migration` is threaded through the
loop as explicit state.
-/

/-- Line 72: `max_attempts = 50`. -/
def maxAttempts : Nat := 50

/-- Line 83, first success substring. -/
def successA : List Char := str "Migrations completed successfully"

/-- Line 83, second success substring. -/
def successB : List Char := str "No migrations to apply"

/-- Line 88: the known-failure substring. -/
def errSig : List Char := str "ERROR: Error running migrations"

/-- Outcome of the loop, mirroring the script's observable behaviour:
`done` = `return` after a success substring (process exit code 0);
`fatalNoInfo` = triple extraction failed, raw output dumped, `sys.exit(1)`;
`fatalUnexpected` = no recognized error substring, raw output dumped,
`sys.exit(1)`; `exhausted` = attempt budget used up, manual-intervention
message, `sys.exit(1)`; `crashed` = an exception raised inside
`fix_index_in_migration` (nothing in `main` catches it) reached the top
level: the interpreter prints a traceback and exits with status 1, the file
untouched by that step.  Each constructor records the number of attempts
performed and the final migration-file content. -/
inductive LoopResult where
  | done (attempts : Nat) (file : List Char)
  | fatalNoInfo (attempts : Nat) (output : List Char) (file : List Char)
  | fatalUnexpected (attempts : Nat) (output : List Char) (file : List Char)
  | exhausted (attempts : Nat) (file : List Char)
  | crashed (attempts : Nat) (file : List Char)

/-- The process exit status: 0 for the success `return`, 1 for every
`sys.exit(1)` path and for an uncaught exception. -/
def exitCode : LoopResult → Nat
  | .done _ _ => 0
  | .fatalNoInfo _ _ _ => 1
  | .fatalUnexpected _ _ _ => 1
  | .exhausted _ _ => 1
  | .crashed _ _ => 1

/-- How many attempts (iterations incrementing `attempt`) were performed. -/
def attemptsUsed : LoopResult → Nat
  | .done a _ => a
  | .fatalNoInfo a _ _ => a
  | .fatalUnexpected a _ _ => a
  | .exhausted a _ => a
  | .crashed a _ => a

/-- Whether the `Reached maximum attempts (50). Please check manually.`
message is printed (line 105). -/
def printsManualMessage : LoopResult → Bool
  | .exhausted _ _ => true
  | _ => false

/-- The raw output dumped for manual inspection on the fatal paths
(lines 97-98 and 101-102). -/
def printsRawOutput : LoopResult → Option (List Char)
  | .fatalNoInfo _ o _ => some o
  | .fatalUnexpected _ o _ => some o
  | _ => none

/-- The `while attempt < max_attempts` loop (lines 75-103), started at a given
value of `attempt`.  One iteration: increment the counter, read the attempt's
output, test the success substrings, then the error substring, then extract
the triple and patch the file, or abort. -/
def loopFrom (outputs : Nat → List Char) (file : List Char) (attempt : Nat) :
    LoopResult :=
  if attempt < maxAttempts then
    let a := attempt + 1
    let out := outputs a
    if containsSub successA out || containsSub successB out then
      .done a file
    else if containsSub errSig out then
      match extract_error_info out with
      | some (c, i, t) =>
        match fix_index_in_migration t c i file with
        | .error _ => .crashed a file
        | .ok r => loopFrom outputs r.content a
      | none => .fatalNoInfo a out file
    else
      .fatalUnexpected a out file
  else
    .exhausted attempt file
termination_by maxAttempts - attempt
decreasing_by
  simp only [maxAttempts] at *
  omega

/-- `main` (lines 71-106): the loop starts with `attempt = 0`. -/
def run_main (outputs : Nat → List Char) (file : List Char) : LoopResult :=
  loopFrom outputs file 0

/-- An output that the loop repairs and retries: no success substring, the
known error substring, and a successfully extracted triple. -/
def retryable (out : List Char) : Prop :=
  (containsSub successA out || containsSub successB out) = false ∧
    containsSub errSig out = true ∧ (extract_error_info out).isSome = true

/-- An output matching the known failure signature whose captured column name
contains the two-character sequence backslash-one (the `[^"]+` captures admit
backslashes), which drives `re.sub`'s template compiler into its
invalid-group-reference error. -/
def crashOut : List Char :=
  str "ERROR: Error running migrations\ncolumn \"a\\1b\" does not exist\nCREATE INDEX IF NOT EXISTS \"idx\" ON \"tbl\" USING btree (\"a\\1b\")"

/-- The declarative reading of the error-extraction regex: `s` contains
`column "<col>" does not exist`, followed anywhere later by
`CREATE INDEX IF NOT EXISTS "<idx>" ON "<tbl>" USING btree ("<c4>")`,
all four captures nonempty and quote-free. -/
def ErrPattern (s col idx tbl c4 : List Char) : Prop :=
  ∃ pre mid post,
    s = pre ++ str "column \"" ++ col ++ str "\" does not exist" ++ mid ++
        str "CREATE INDEX IF NOT EXISTS \"" ++ idx ++ str "\" ON \"" ++ tbl ++
        str "\" USING btree (\"" ++ c4 ++ str "\")" ++ post ∧
    col ≠ [] ∧ ¬ '"' ∈ col ∧ idx ≠ [] ∧ ¬ '"' ∈ idx ∧ tbl ≠ [] ∧ ¬ '"' ∈ tbl ∧
    c4 ≠ [] ∧ ¬ '"' ∈ c4

/-!
## The whole-file patcher (`main` of `fix_migration_indexes.py`, lines 54-89)

`main` reads the file with `readlines` (modelled by `splitLines`, which keeps
the newline at the end of every line), walks the line list with a lookahead of
one line, and writes the processed lines back with `writelines` (modelled by
`joinAll`) to the same path.  The `skip_next` flag of the source (lines 64-69)
is initialised to False and never set to True, so it is dead code and has no
observable effect; the model omits it.
-/

/-- The substring tested on line 72. -/
def CImark : List Char := str "CREATE INDEX IF NOT EXISTS"

/-- The substring tested on lines 72 and 74. -/
def DOmark : List Char := str "DO $$"

/-- Python `readlines`: split after every newline, keeping the newline;
a final segment without a newline is kept, an empty tail is not. -/
def splitLines : List Char → List (List Char)
  | [] => []
  | c :: s =>
    if c = '\n' then ['\n'] :: splitLines s
    else
      match splitLines s with
      | [] => [[c]]
      | l :: ls => (c :: l) :: ls

/-- The per-line decision of the loop (lines 71-83): a line containing
`CREATE INDEX IF NOT EXISTS` but not `DO $$` is kept as-is when the next line
contains `DO $$` (already fixed), else rewritten with `fix_index_creation`;
every other line is kept as-is. -/
def step (line : List Char) (next : Option (List Char)) : List Char :=
  if containsSub CImark line && !containsSub DOmark line then
    match next with
    | some nxt => if containsSub DOmark nxt then line else fix_index_creation line
    | none => fix_index_creation line
  else line

/-- The loop over all lines with its one-line lookahead (lines 63-83). -/
def processLines : List (List Char) → List (List Char)
  | [] => []
  | l :: rest => step l rest.head? :: processLines rest

/-- `main` (lines 54-89): read, process, write back (writelines concatenates). -/
def patchFile (s : List Char) : List Char :=
  joinAll (processLines (splitLines s))

/-- Line 55: the path read. -/
def inputFile : List Char := str "drizzle/0027_high_amphibian.sql"

/-- Line 56: the path written. -/
def outputFile : List Char := str "drizzle/0027_high_amphibian.sql"

/-!
## Occurrence counting

`countOccs p s` counts the positions of `s` at which the pattern `p` occurs.
"Exactly one `DO $$ ... END$$` block" in the specification is formalised as
the marker strings occurring exactly once in the rewriter output.
-/

def countOccs (p : List Char) : List Char → Nat
  | [] => 0
  | c :: t => (if p.isPrefixOf (c :: t) then 1 else 0) + countOccs p t

/-- The fully rendered conditional block for a single-column index: the
f-string of lines 34-48 with `where_clause = column_name = '<c>'` and
`columns = "<c>"`. -/
def singleBlock (idx t c : List Char) : List Char :=
  str "DO $$\nBEGIN\n    IF EXISTS (\n        SELECT 1\n        FROM information_schema.columns\n        WHERE table_name = '"
    ++ t
    ++ str "'\n        AND (column_name = '"
    ++ c
    ++ str "')\n    ) THEN\n        CREATE INDEX IF NOT EXISTS \""
    ++ idx
    ++ str "\"\n        ON \""
    ++ t
    ++ str "\" USING btree (\""
    ++ c
    ++ str "\");\n        RAISE NOTICE 'Created index "
    ++ idx
    ++ str "';\n    ELSE\n        RAISE NOTICE 'Column(s) do not exist in "
    ++ t
    ++ str " table, skipping index creation';\n    END IF;\nEND$$;--> statement-breakpoint"

/-!
## Idempotence of the whole-file patcher (claim C3)

The proof shows that every line of the file produced by `patchFile` is left
unchanged by a second run: rewritten blocks re-split into lines none of which
starts with `C` (so the anchored regex cannot fire on them), already-fixed
statements are still followed by their `DO $$` line, and unmatched lines stay
unmatched.
-/

/-- A line has its newline (if any) only as its final character. -/
def NLshape (l : List Char) : Prop :=
  ∃ b, ¬ '\n' ∈ b ∧ (l = b ∨ l = b ++ ['\n'])

/-- Well-formedness of a `readlines` result: lines are nonempty, newlines
only terminate lines, and every line except the last ends with a newline. -/
def LinesWF : List (List Char) → Prop
  | [] => True
  | l :: rest =>
    l ≠ [] ∧ NLshape l ∧ (rest ≠ [] → l.getLast? = some '\n') ∧ LinesWF rest

/-- Scan of a text checking that no line (the start, or any position following
a newline) begins with `C`.  `atStart` records whether the scan is at a line
start. -/
def okFrom (atStart : Bool) : List Char → Bool
  | [] => true
  | c :: t => (!atStart || !(c == 'C')) && okFrom (c == '\n') t

/-- The line-start state after scanning `l`, starting from state `b`. -/
def endNL (b : Bool) : List Char → Bool
  | [] => b
  | c :: t => endNL (c == '\n') t

/-- A line on which the decision is the identity whatever the next line is. -/
def StableAnyNext (l : List Char) : Prop := ∀ nxt, step l nxt = l

/-- Pointwise stability of a line list under the patcher's loop. -/
def StableList : List (List Char) → Prop
  | [] => True
  | l :: rest => step l rest.head? = l ∧ StableList rest

def tailBlock : List Char := str "END$$;--> statement-breakpoint"

/-- The converted block minus its final physical line (ends in a newline). -/
def blkNL (indexName tableName columns : List Char) : List Char :=
  str "DO $$\nBEGIN\n    IF EXISTS (\n        SELECT 1\n        FROM information_schema.columns\n        WHERE table_name = '"
    ++ tableName
    ++ str "'\n        AND ("
    ++ whereClause (columnList columns)
    ++ str ")\n    ) THEN\n        CREATE INDEX IF NOT EXISTS \""
    ++ indexName
    ++ str "\"\n        ON \""
    ++ tableName
    ++ str "\" USING btree ("
    ++ columns
    ++ str ");\n        RAISE NOTICE 'Created index "
    ++ indexName
    ++ str "';\n    ELSE\n        RAISE NOTICE 'Column(s) do not exist in "
    ++ tableName
    ++ str " table, skipping index creation';\n    END IF;\n"

/-- Claim C8: an input line that does not match the `CREATE INDEX IF NOT
EXISTS` pattern is returned unchanged by `fix_index_creation`; it is not
treated as an error (the function is total and is the identity there). -/
theorem c8_nonmatching_line_passes_through (l : List Char)
    (h : parseCreateIndex l = none) : fix_index_creation l = l := by
  unfold fix_index_creation
  rw [h]

/-- Witness for C8 at a concrete malformed line. -/
theorem c8_nonmatching_line_passes_through_witness :
    parseCreateIndex (str "ALTER TABLE x ADD COLUMN y;--> statement-breakpoint") = none ∧
      fix_index_creation (str "ALTER TABLE x ADD COLUMN y;--> statement-breakpoint") =
        str "ALTER TABLE x ADD COLUMN y;--> statement-breakpoint" :=
  ⟨by decide, c8_nonmatching_line_passes_through _ (by decide)⟩

/-- One unfolding of the loop body when the attempt budget is not exhausted. -/
theorem loopFrom_step (outputs : Nat → List Char) (file : List Char) (attempt : Nat)
    (h : attempt < maxAttempts) :
    loopFrom outputs file attempt =
      if containsSub successA (outputs (attempt + 1)) ||
          containsSub successB (outputs (attempt + 1)) then
        LoopResult.done (attempt + 1) file
      else if containsSub errSig (outputs (attempt + 1)) then
        match extract_error_info (outputs (attempt + 1)) with
        | some (c, i, t) =>
          match fix_index_in_migration t c i file with
          | .error _ => LoopResult.crashed (attempt + 1) file
          | .ok r => loopFrom outputs r.content (attempt + 1)
        | none => LoopResult.fatalNoInfo (attempt + 1) (outputs (attempt + 1)) file
      else
        LoopResult.fatalUnexpected (attempt + 1) (outputs (attempt + 1)) file := by
  conv_lhs => rw [loopFrom]
  rw [if_pos h]

/-- When the budget is exhausted the loop stops with the manual message. -/
theorem loopFrom_stop (outputs : Nat → List Char) (file : List Char) (attempt : Nat)
    (h : ¬ attempt < maxAttempts) :
    loopFrom outputs file attempt = LoopResult.exhausted attempt file := by
  conv_lhs => rw [loopFrom]
  rw [if_neg h]

/-- Helper: a success substring on the next attempt ends the loop at once,
leaving the file untouched. -/
theorem loop_done_of_success (outputs : Nat → List Char) (file : List Char)
    (attempt : Nat) (h : attempt < maxAttempts)
    (hsuc : containsSub successA (outputs (attempt + 1)) = true ∨
      containsSub successB (outputs (attempt + 1)) = true) :
    loopFrom outputs file attempt = LoopResult.done (attempt + 1) file := by
  have hcond : (containsSub successA (outputs (attempt + 1)) ||
      containsSub successB (outputs (attempt + 1))) = true := by
    rcases hsuc with h1 | h1 <;> simp [h1]
  rw [loopFrom_step outputs file attempt h, if_pos hcond]

/-- Claim C6: output containing "Migrations completed successfully" or
"No migrations to apply" makes the loop terminate successfully (exit code 0)
on that very attempt, without patching the migration file; in particular such
output on the first attempt ends the run on attempt 1. -/
theorem c6_success_terminates_immediately :
    (∀ (outputs : Nat → List Char) (file : List Char) (attempt : Nat),
        attempt < maxAttempts →
        (containsSub successA (outputs (attempt + 1)) = true ∨
          containsSub successB (outputs (attempt + 1)) = true) →
        loopFrom outputs file attempt = LoopResult.done (attempt + 1) file ∧
          exitCode (loopFrom outputs file attempt) = 0 ∧
          attemptsUsed (loopFrom outputs file attempt) = attempt + 1) ∧
    (∀ (outputs : Nat → List Char) (file : List Char),
        (containsSub successA (outputs 1) = true ∨
          containsSub successB (outputs 1) = true) →
        run_main outputs file = LoopResult.done 1 file ∧
          exitCode (run_main outputs file) = 0) := by
  constructor
  · intro outputs file attempt h hsuc
    have hd := loop_done_of_success outputs file attempt h hsuc
    exact ⟨hd, by rw [hd]; rfl, by rw [hd]; rfl⟩
  · intro outputs file hsuc
    have h0 : (0 : Nat) < maxAttempts := by decide
    have hd := loop_done_of_success outputs file 0 h0 hsuc
    exact ⟨hd, by rw [run_main, hd]; rfl⟩

/-- Witness for C6: "No migrations to apply" on the first attempt. -/
theorem c6_success_terminates_immediately_witness :
    containsSub successB ((fun _ => str "No migrations to apply") 1) = true ∧
      run_main (fun _ => str "No migrations to apply") (str "SELECT 1;") =
        LoopResult.done 1 (str "SELECT 1;") :=
  ⟨by decide,
    (c6_success_terminates_immediately.2 (fun _ => str "No migrations to apply")
      (str "SELECT 1;") (Or.inr (by decide))).1⟩

/-- Helper: a category-(b) output (no success substring, and either no known
error substring or a failed triple extraction) aborts the loop on that attempt
with exit code 1, the raw output dumped, and the file untouched. -/
theorem loop_fatal_of_unrecognized (outputs : Nat → List Char) (file : List Char)
    (attempt : Nat) (h : attempt < maxAttempts)
    (hnosuc : (containsSub successA (outputs (attempt + 1)) ||
      containsSub successB (outputs (attempt + 1))) = false)
    (hbad : containsSub errSig (outputs (attempt + 1)) = false ∨
      extract_error_info (outputs (attempt + 1)) = none) :
    loopFrom outputs file attempt =
        LoopResult.fatalNoInfo (attempt + 1) (outputs (attempt + 1)) file ∨
      loopFrom outputs file attempt =
        LoopResult.fatalUnexpected (attempt + 1) (outputs (attempt + 1)) file := by
  rw [loopFrom_step outputs file attempt h, if_neg (by simp [hnosuc])]
  rcases hbad with herr | hext
  · right
    rw [if_neg (by simp [herr])]
  · by_cases herr : containsSub errSig (outputs (attempt + 1)) = true
    · left
      rw [if_pos herr, hext]
    · right
      rw [if_neg herr]

/-- Claim C5: if an attempt's output contains no success substring and either
lacks "ERROR: Error running migrations" or defeats the triple extraction, the
loop prints the full raw output and exits immediately with status 1,
performing no further attempts. -/
theorem c5_unrecognized_error_fatal (outputs : Nat → List Char) (file : List Char)
    (attempt : Nat) (h : attempt < maxAttempts)
    (hnosuc : (containsSub successA (outputs (attempt + 1)) ||
      containsSub successB (outputs (attempt + 1))) = false)
    (hbad : containsSub errSig (outputs (attempt + 1)) = false ∨
      extract_error_info (outputs (attempt + 1)) = none) :
    (loopFrom outputs file attempt =
        LoopResult.fatalNoInfo (attempt + 1) (outputs (attempt + 1)) file ∨
      loopFrom outputs file attempt =
        LoopResult.fatalUnexpected (attempt + 1) (outputs (attempt + 1)) file) ∧
      exitCode (loopFrom outputs file attempt) = 1 ∧
      attemptsUsed (loopFrom outputs file attempt) = attempt + 1 ∧
      printsRawOutput (loopFrom outputs file attempt) = some (outputs (attempt + 1)) := by
  have hd := loop_fatal_of_unrecognized outputs file attempt h hnosuc hbad
  refine ⟨hd, ?_, ?_, ?_⟩ <;> rcases hd with he | he <;> rw [he] <;> rfl

/-- Witness for C5: an output with an unrecognized error string aborts on the
first attempt. -/
theorem c5_unrecognized_error_fatal_witness :
    (0 : Nat) < maxAttempts ∧
      (loopFrom (fun _ => str "FATAL: database does not exist") (str "SELECT 1;") 0 =
          LoopResult.fatalNoInfo 1 (str "FATAL: database does not exist")
            (str "SELECT 1;") ∨
        loopFrom (fun _ => str "FATAL: database does not exist") (str "SELECT 1;") 0 =
          LoopResult.fatalUnexpected 1 (str "FATAL: database does not exist")
            (str "SELECT 1;")) ∧
      exitCode (loopFrom (fun _ => str "FATAL: database does not exist")
        (str "SELECT 1;") 0) = 1 :=
  ⟨by decide,
    (c5_unrecognized_error_fatal (fun _ => str "FATAL: database does not exist")
      (str "SELECT 1;") 0 (by decide) (by decide) (Or.inl (by decide))).1,
    (c5_unrecognized_error_fatal (fun _ => str "FATAL: database does not exist")
      (str "SELECT 1;") 0 (by decide) (by decide) (Or.inl (by decide))).2.1⟩

set_option maxRecDepth 100000 in
/-- The replacement text contains a backslash only if one of the three
interpolated names does: the f-string's own text is backslash-free. -/
theorem not_bs_replOf {i t c : List Char} (hi : ¬ '\\' ∈ i) (ht : ¬ '\\' ∈ t)
    (hc : ¬ '\\' ∈ c) : ¬ '\\' ∈ replOf i t c := by
  intro hm
  simp only [replOf, List.mem_append] at hm
  rcases hm with
    (((((((((((((((h1 | h2) | h3) | h4) | h5) | h6) | h7) | h8) | h9) | h10)
      | h11) | h12) | h13) | h14) | h15) | h16) | h17
  exacts [absurd h1 (by decide), ht h2, absurd h3 (by decide), hc h4,
    absurd h5 (by decide), hi h6, absurd h7 (by decide), ht h8,
    absurd h9 (by decide), hc h10, absurd h11 (by decide), hi h12,
    absurd h13 (by decide), hc h14, absurd h15 (by decide), ht h16,
    absurd h17 (by decide)]

/-- With backslash-free names `re.sub` takes its literal fast path: the call
succeeds, performs the literal global substitution, writes and prints. -/
theorem fix_ok_of_no_bs {t c i : List Char} (ht : ¬ '\\' ∈ t) (hc : ¬ '\\' ∈ c)
    (hi : ¬ '\\' ∈ i) (content : List Char) :
    fix_index_in_migration t c i content =
      Except.ok ⟨replaceAll (patOf i t c) (replOf i t c) content, true, true⟩ := by
  unfold fix_index_in_migration
  rw [if_neg (not_bs_replOf hi ht hc)]

/-- Helper: from any reachable loop state, if every remaining attempt's output
is retryable and every extracted triple is backslash-free (so each fix step's
replacement template compiles), the loop runs the budget down and stops in
the `exhausted` state at attempt 50. -/
theorem loop_exhausted_of_all_retryable (outputs : Nat → List Char)
    (hbs : ∀ a c i t, extract_error_info (outputs a) = some (c, i, t) →
      ¬ '\\' ∈ c ∧ ¬ '\\' ∈ i ∧ ¬ '\\' ∈ t) :
    ∀ (n attempt : Nat), maxAttempts - attempt = n → attempt ≤ maxAttempts →
      (∀ a, attempt < a → a ≤ maxAttempts → retryable (outputs a)) →
      ∀ file, ∃ f, loopFrom outputs file attempt = LoopResult.exhausted maxAttempts f := by
  intro n
  induction n with
  | zero =>
    intro attempt hn hle _hr file
    have ha : attempt = maxAttempts := by omega
    refine ⟨file, ?_⟩
    rw [ha]
    exact loopFrom_stop outputs file maxAttempts (by omega)
  | succ m ih =>
    intro attempt hn _hle hr file
    have hlt : attempt < maxAttempts := by omega
    obtain ⟨hnosuc, herr, hext⟩ := hr (attempt + 1) (by omega) (by omega)
    obtain ⟨⟨c, i, t⟩, hsome⟩ := Option.isSome_iff_exists.mp hext
    obtain ⟨hc, hi, ht⟩ := hbs (attempt + 1) c i t hsome
    have hns : ¬ ((containsSub successA (outputs (attempt + 1)) ||
        containsSub successB (outputs (attempt + 1))) = true) := by simp [hnosuc]
    have hstep : loopFrom outputs file attempt =
        loopFrom outputs (replaceAll (patOf i t c) (replOf i t c) file) (attempt + 1) := by
      rw [loopFrom_step outputs file attempt hlt, if_neg hns, if_pos herr, hsome]
      simp only []
      rw [fix_ok_of_no_bs ht hc hi file]
    rw [hstep]
    exact ih (attempt + 1) (by omega) (by omega)
      (fun a ha1 ha2 => hr a (by omega) ha2)
      (replaceAll (patOf i t c) (replOf i t c) file)

/-- Helper: no run of the loop performs more than `maxAttempts` attempts,
whether it succeeds, aborts, crashes or exhausts the budget. -/
theorem loop_attempts_bounded (outputs : Nat → List Char) :
    ∀ (n attempt : Nat), maxAttempts - attempt = n → attempt ≤ maxAttempts →
      ∀ file, attemptsUsed (loopFrom outputs file attempt) ≤ maxAttempts := by
  intro n
  induction n with
  | zero =>
    intro attempt hn hle file
    have ha : attempt = maxAttempts := by omega
    rw [ha, loopFrom_stop outputs file maxAttempts (by omega)]
    exact Nat.le_refl _
  | succ m ih =>
    intro attempt hn _hle file
    have hlt : attempt < maxAttempts := by omega
    rw [loopFrom_step outputs file attempt hlt]
    by_cases hsuc : (containsSub successA (outputs (attempt + 1)) ||
        containsSub successB (outputs (attempt + 1))) = true
    · rw [if_pos hsuc]
      show attempt + 1 ≤ maxAttempts
      omega
    · rw [if_neg hsuc]
      by_cases herr : containsSub errSig (outputs (attempt + 1)) = true
      · rw [if_pos herr]
        cases hx : extract_error_info (outputs (attempt + 1)) with
        | none =>
          show attempt + 1 ≤ maxAttempts
          omega
        | some cit =>
          obtain ⟨c, i, t⟩ := cit
          simp only []
          cases hfix : fix_index_in_migration t c i file with
          | error e =>
            show attempt + 1 ≤ maxAttempts
            omega
          | ok r => exact ih (attempt + 1) (by omega) (by omega) r.content
      · rw [if_neg herr]
        show attempt + 1 ≤ maxAttempts
        omega

/-- Claim C4 (corrected): if no attempt's output contains a success substring,
every failure matches the known signature (error substring present and the
triple extractable), and — the correction — every extracted triple is free of
backslashes, so that each fix step's `re.sub` replacement template compiles,
then the loop performs exactly 50 attempts and terminates with exit code 1
after printing the manual-intervention message.  Without the backslash
proviso the fix step can raise an uncaught `re.error` on the very first
attempt instead (see the counterexample).  In all cases no run ever performs
more than 50 attempts. -/
theorem c4_attempt_budget :
    (∀ (outputs : Nat → List Char) (file : List Char),
        (∀ a, 1 ≤ a → a ≤ maxAttempts → retryable (outputs a)) →
        (∀ a c i t, extract_error_info (outputs a) = some (c, i, t) →
          ¬ '\\' ∈ c ∧ ¬ '\\' ∈ i ∧ ¬ '\\' ∈ t) →
        ∃ f, run_main outputs file = LoopResult.exhausted maxAttempts f ∧
          attemptsUsed (run_main outputs file) = 50 ∧
          exitCode (run_main outputs file) = 1 ∧
          printsManualMessage (run_main outputs file) = true) ∧
    (∀ (outputs : Nat → List Char) (file : List Char),
        attemptsUsed (run_main outputs file) ≤ 50) := by
  constructor
  · intro outputs file hr hbs
    obtain ⟨f, hf⟩ := loop_exhausted_of_all_retryable outputs hbs maxAttempts 0 rfl
      (by omega) (fun a ha1 ha2 => hr a ha1 ha2) file
    rw [run_main]
    exact ⟨f, hf, by rw [hf]; rfl, by rw [hf]; rfl, by rw [hf]; rfl⟩
  · intro outputs file
    exact loop_attempts_bounded outputs maxAttempts 0 rfl (by omega) file

set_option maxRecDepth 100000 in
/-- Witness for C4: a run whose every attempt yields the same recognized,
extractable, backslash-free failure exhausts the 50-attempt budget. -/
theorem c4_attempt_budget_witness :
    retryable (str "ERROR: Error running migrations\ncolumn \"foo\" does not exist\nCREATE INDEX IF NOT EXISTS \"idx_foo\" ON \"bar\" USING btree (\"foo\")") ∧
      ∃ f, run_main
        (fun _ => str "ERROR: Error running migrations\ncolumn \"foo\" does not exist\nCREATE INDEX IF NOT EXISTS \"idx_foo\" ON \"bar\" USING btree (\"foo\")")
        (str "SELECT 1;") = LoopResult.exhausted maxAttempts f := by
  have hret : retryable (str "ERROR: Error running migrations\ncolumn \"foo\" does not exist\nCREATE INDEX IF NOT EXISTS \"idx_foo\" ON \"bar\" USING btree (\"foo\")") :=
    ⟨by decide, by decide, by decide⟩
  refine ⟨hret, ?_⟩
  obtain ⟨f, hf, -, -, -⟩ := c4_attempt_budget.1
    (fun _ => str "ERROR: Error running migrations\ncolumn \"foo\" does not exist\nCREATE INDEX IF NOT EXISTS \"idx_foo\" ON \"bar\" USING btree (\"foo\")")
    (str "SELECT 1;") (fun _ _ _ => hret)
    (fun a c i t h => by
      simp only [] at h
      rw [show extract_error_info (str "ERROR: Error running migrations\ncolumn \"foo\" does not exist\nCREATE INDEX IF NOT EXISTS \"idx_foo\" ON \"bar\" USING btree (\"foo\")") =
        some (str "foo", str "idx_foo", str "bar") from by decide] at h
      simp only [Option.some.injEq, Prod.mk.injEq] at h
      obtain ⟨h1, h2, h3⟩ := h
      subst h1
      subst h2
      subst h3
      exact ⟨by decide, by decide, by decide⟩)
  exact ⟨f, hf⟩

set_option maxRecDepth 1000000 in
/-- Counterexample to C4's original unconditional reading: an output that is
retryable (recognized signature, extractable triple) but whose captured
column name contains backslash-one makes the fix step raise
`invalid group reference` inside `re.sub` on the very first attempt — one
attempt, no manual-intervention message, instead of 50 attempts. -/
theorem c4_attempt_budget_counterexample :
    retryable crashOut ∧
      run_main (fun _ => crashOut) (str "SELECT 1;") =
        LoopResult.crashed 1 (str "SELECT 1;") ∧
      attemptsUsed (run_main (fun _ => crashOut) (str "SELECT 1;")) = 1 ∧
      printsManualMessage (run_main (fun _ => crashOut) (str "SELECT 1;")) = false := by
  have hret : retryable crashOut := ⟨by decide, by decide, by decide⟩
  have hrun : run_main (fun _ => crashOut) (str "SELECT 1;") =
      LoopResult.crashed 1 (str "SELECT 1;") := by
    rw [run_main, loopFrom_step (fun _ => crashOut) (str "SELECT 1;") 0 (by decide)]
    rw [if_neg (by decide), if_pos (by decide)]
    rw [show extract_error_info ((fun _ : Nat => crashOut) (0 + 1)) =
      some (str "a\\1b", str "idx", str "tbl") from by decide]
    simp only []
    rw [show fix_index_in_migration (str "tbl") (str "a\\1b") (str "idx")
      (str "SELECT 1;") = Except.error (TemplateError.invalidGroupReference 1) from rfl]
  exact ⟨hret, hrun, by rw [hrun]; rfl, by rw [hrun]; rfl⟩

/-! ## Generic helper lemmas about the string primitives -/

theorem expect_eq_some {p s r : List Char} (h : expect p s = some r) : s = p ++ r := by
  unfold expect at h
  by_cases hp : p.isPrefixOf s
  · rw [if_pos hp] at h
    obtain ⟨z, hz⟩ := List.isPrefixOf_iff_prefix.mp hp
    have hr : r = s.drop p.length := (Option.some.injEq .. ▸ h).symm
    rw [hr, ← hz, List.drop_left]
  · rw [if_neg hp] at h
    exact absurd h (by simp)

theorem expect_append (p r : List Char) : expect p (p ++ r) = some r := by
  unfold expect
  rw [if_pos (List.isPrefixOf_iff_prefix.mpr (List.prefix_append p r))]
  rw [List.drop_left]

theorem dropWhile_eq_cons_false {p : Char → Bool} {l : List Char} {c : Char} {r : List Char}
    (h : l.dropWhile p = c :: r) : p c = false := by
  induction l with
  | nil => simp [List.dropWhile] at h
  | cons x t ih =>
    rw [List.dropWhile_cons] at h
    by_cases hx : p x = true
    · rw [if_pos hx] at h
      exact ih h
    · rw [if_neg hx] at h
      injection h with h1 _
      rw [← h1]
      exact Bool.not_eq_true _ ▸ hx

theorem takeWhile_app_eq {p : Char → Bool} {a : List Char} (ha : ∀ x ∈ a, p x = true)
    {b : Char} {r : List Char} (hb : p b = false) :
    (a ++ b :: r).takeWhile p = a ∧ (a ++ b :: r).dropWhile p = b :: r := by
  induction a with
  | nil => simp [List.takeWhile_cons, List.dropWhile_cons, hb]
  | cons x t ih =>
    have hx : p x = true := ha x (by simp)
    have iht := ih (fun y hy => ha y (by simp [hy]))
    refine ⟨?_, ?_⟩
    · rw [List.cons_append, List.takeWhile_cons, if_pos hx, iht.1]
    · rw [List.cons_append, List.dropWhile_cons, if_pos hx, iht.2]

theorem ne_nil_of_isEmpty_false {l : List Char} (h : ¬ l.isEmpty = true) : l ≠ [] := by
  cases l with
  | nil => simp at h
  | cons c t => simp

theorem noQuote_of_takeWhile {r : List Char} :
    ¬ '"' ∈ r.takeWhile (· != '"') := by
  intro hmem
  have := List.mem_takeWhile_imp hmem
  simp at this

/-- Soundness of the tail matcher: a successful match decomposes the input. -/
theorem matchTail_sound {s i t : List Char} (h : matchTail s = some (i, t)) :
    ∃ c4 post,
      s = str "CREATE INDEX IF NOT EXISTS \"" ++ i ++ str "\" ON \"" ++ t ++
          str "\" USING btree (\"" ++ c4 ++ str "\")" ++ post ∧
      i ≠ [] ∧ ¬ '"' ∈ i ∧ t ≠ [] ∧ ¬ '"' ∈ t ∧ c4 ≠ [] ∧ ¬ '"' ∈ c4 := by
  unfold matchTail at h
  cases h1 : expect (str "CREATE INDEX IF NOT EXISTS \"") s with
  | none => rw [h1] at h; simp at h
  | some r1 =>
    rw [h1] at h
    simp only [] at h
    by_cases he1 : (r1.takeWhile (· != '"')).isEmpty = true
    · rw [if_pos he1] at h; simp at h
    · rw [if_neg he1] at h
      cases h2 : expect (str "\" ON \"") (r1.dropWhile (· != '"')) with
      | none => rw [h2] at h; simp at h
      | some r2 =>
        rw [h2] at h
        simp only [] at h
        by_cases he2 : (r2.takeWhile (· != '"')).isEmpty = true
        · rw [if_pos he2] at h; simp at h
        · rw [if_neg he2] at h
          cases h3 : expect (str "\" USING btree (\"") (r2.dropWhile (· != '"')) with
          | none => rw [h3] at h; simp at h
          | some r3 =>
            rw [h3] at h
            simp only [] at h
            by_cases he3 : (r3.takeWhile (· != '"')).isEmpty = true
            · rw [if_pos he3] at h; simp at h
            · rw [if_neg he3] at h
              cases h4 : expect (str "\")") (r3.dropWhile (· != '"')) with
              | none => rw [h4] at h; simp at h
              | some r4 =>
                rw [h4] at h
                simp only [Option.some.injEq, Prod.mk.injEq] at h
                obtain ⟨hi, ht⟩ := h
                refine ⟨r3.takeWhile (· != '"'), r4, ?_, ?_, ?_, ?_, ?_, ?_, ?_⟩
                · have hs1 := expect_eq_some h1
                  have hd1 := expect_eq_some h2
                  have hd2 := expect_eq_some h3
                  have hd3 := expect_eq_some h4
                  rw [hs1, ← List.takeWhile_append_dropWhile (· != '"') r1, hd1,
                    ← List.takeWhile_append_dropWhile (· != '"') r2, hd2,
                    ← List.takeWhile_append_dropWhile (· != '"') r3, hd3, hi, ht]
                  simp [List.append_assoc]
                  have hA := fun y (hy : y ∈ List.takeWhile (fun x => x != '"') r3) =>
                    List.mem_takeWhile_imp hy
                  have hq : str "\")" ++ r4 = '"' :: ')' :: r4 := rfl
                  rw [hq]
                  exact ((takeWhile_app_eq hA
                    (by decide : (('"' : Char) != '"') = false)).1).symm
                · rw [← hi]; exact ne_nil_of_isEmpty_false he1
                · rw [← hi]; exact noQuote_of_takeWhile
                · rw [← ht]; exact ne_nil_of_isEmpty_false he2
                · rw [← ht]; exact noQuote_of_takeWhile
                · exact ne_nil_of_isEmpty_false he3
                · exact noQuote_of_takeWhile

/-- Soundness of `searchTail`: a hit decomposes the input at some offset. -/
theorem searchTail_sound {s i t : List Char} (h : searchTail s = some (i, t)) :
    ∃ mid u, s = mid ++ u ∧ matchTail u = some (i, t) := by
  induction s with
  | nil => simp [searchTail] at h
  | cons c s' ih =>
    rw [searchTail] at h
    cases hm : matchTail (c :: s') with
    | some r =>
      rw [hm] at h
      simp only [] at h
      exact ⟨[], c :: s', rfl, hm.trans h⟩
    | none =>
      rw [hm] at h
      simp only [] at h
      obtain ⟨mid, u, hs, hm'⟩ := ih h
      exact ⟨c :: mid, u, by rw [List.cons_append, ← hs], hm'⟩

/-- Soundness of the anchored error matcher. -/
theorem matchErrAt_sound {s c i t : List Char} (h : matchErrAt s = some (c, i, t)) :
    ∃ c4 mid post,
      s = str "column \"" ++ c ++ str "\" does not exist" ++ mid ++
          str "CREATE INDEX IF NOT EXISTS \"" ++ i ++ str "\" ON \"" ++ t ++
          str "\" USING btree (\"" ++ c4 ++ str "\")" ++ post ∧
      c ≠ [] ∧ ¬ '"' ∈ c ∧ i ≠ [] ∧ ¬ '"' ∈ i ∧ t ≠ [] ∧ ¬ '"' ∈ t ∧
      c4 ≠ [] ∧ ¬ '"' ∈ c4 := by
  unfold matchErrAt at h
  cases h1 : expect (str "column \"") s with
  | none => rw [h1] at h; simp at h
  | some r1 =>
    rw [h1] at h
    simp only [] at h
    by_cases he1 : (r1.takeWhile (· != '"')).isEmpty = true
    · rw [if_pos he1] at h; simp at h
    · rw [if_neg he1] at h
      cases h2 : expect (str "\" does not exist") (r1.dropWhile (· != '"')) with
      | none => rw [h2] at h; simp at h
      | some r2 =>
        rw [h2] at h
        simp only [] at h
        cases h3 : searchTail r2 with
        | none => rw [h3] at h; simp at h
        | some it =>
          obtain ⟨i0, t0⟩ := it
          rw [h3] at h
          simp only [] at h
          simp only [Option.some.injEq, Prod.mk.injEq] at h
          obtain ⟨hc, hi0, ht0⟩ := h
          obtain ⟨mid, u, hru, hmt⟩ := searchTail_sound h3
          rw [hi0, ht0] at hmt
          obtain ⟨c4, post, hu, hine, hiq, htne, htq, hc4ne, hc4q⟩ := matchTail_sound hmt
          refine ⟨c4, mid, post, ?_, ?_, ?_, hine, hiq, htne, htq, hc4ne, hc4q⟩
          · have hs1 := expect_eq_some h1
            have hd1 := expect_eq_some h2
            rw [hs1, ← List.takeWhile_append_dropWhile (· != '"') r1, hd1, hru, hu, hc]
            simp [List.append_assoc]
          · rw [← hc]; exact ne_nil_of_isEmpty_false he1
          · rw [← hc]; exact noQuote_of_takeWhile

/-- Soundness of `extract_error_info` (claim C7, one direction): a returned
triple comes from an occurrence of the error pattern in the output. -/
theorem extract_error_info_sound {s c i t : List Char}
    (h : extract_error_info s = some (c, i, t)) : ∃ c4, ErrPattern s c i t c4 := by
  induction s with
  | nil => simp [extract_error_info] at h
  | cons x s' ih =>
    rw [extract_error_info] at h
    cases hm : matchErrAt (x :: s') with
    | some r =>
      rw [hm] at h
      simp only [] at h
      rw [h] at hm
      obtain ⟨c4, mid, post, hs, hcne, hcq, hine, hiq, htne, htq, hc4ne, hc4q⟩ :=
        matchErrAt_sound hm
      exact ⟨c4, [], mid, post,
        by rw [List.nil_append, hs],
        hcne, hcq, hine, hiq, htne, htq, hc4ne, hc4q⟩
    | none =>
      rw [hm] at h
      simp only [] at h
      obtain ⟨c4, pre, mid, post, hs, hprops⟩ := ih h
      exact ⟨c4, x :: pre, mid, post, by rw [hs]; simp [List.append_assoc], hprops⟩

theorem bne_quote_of_not_mem {l : List Char} (h : ¬ '"' ∈ l) :
    ∀ y ∈ l, (fun x => x != '"') y = true := by
  intro y hy
  simp only [bne_iff_ne, ne_eq]
  intro he
  exact h (he ▸ hy)

theorem isEmpty_false_of_ne {l : List Char} (h : l ≠ []) : ¬ l.isEmpty = true := by
  cases l with
  | nil => exact absurd rfl h
  | cons c t => simp

/-- Completeness of the tail matcher on a template-shaped input. -/
theorem matchTail_complete (i t c4 post : List Char)
    (hi : i ≠ []) (hqi : ¬ '"' ∈ i) (ht : t ≠ []) (hqt : ¬ '"' ∈ t)
    (hc4 : c4 ≠ []) (hqc4 : ¬ '"' ∈ c4) :
    matchTail (str "CREATE INDEX IF NOT EXISTS \"" ++ i ++ str "\" ON \"" ++ t ++
      str "\" USING btree (\"" ++ c4 ++ str "\")" ++ post) = some (i, t) := by
  have hbq : (fun x => x != '"') '"' = false := by decide
  have hfull : str "CREATE INDEX IF NOT EXISTS \"" ++ i ++ str "\" ON \"" ++ t ++
      str "\" USING btree (\"" ++ c4 ++ str "\")" ++ post
      = str "CREATE INDEX IF NOT EXISTS \"" ++
        (i ++ '"' :: (str " ON \"" ++ (t ++ '"' :: (str " USING btree (\"" ++
          (c4 ++ '"' :: ')' :: post))))) := by
    simp only [List.append_assoc]
    rfl
  rw [hfull]
  unfold matchTail
  rw [expect_append]
  simp only []
  rw [(takeWhile_app_eq (bne_quote_of_not_mem hqi) hbq).1,
    (takeWhile_app_eq (bne_quote_of_not_mem hqi) hbq).2,
    if_neg (isEmpty_false_of_ne hi)]
  have h2 : ('"' :: (str " ON \"" ++ (t ++ '"' :: (str " USING btree (\"" ++
      (c4 ++ '"' :: ')' :: post)))))
      = str "\" ON \"" ++ (t ++ '"' :: (str " USING btree (\"" ++
        (c4 ++ '"' :: ')' :: post))) := rfl
  rw [h2, expect_append]
  simp only []
  rw [(takeWhile_app_eq (bne_quote_of_not_mem hqt) hbq).1,
    (takeWhile_app_eq (bne_quote_of_not_mem hqt) hbq).2,
    if_neg (isEmpty_false_of_ne ht)]
  have h3 : ('"' :: (str " USING btree (\"" ++ (c4 ++ '"' :: ')' :: post)))
      = str "\" USING btree (\"" ++ (c4 ++ '"' :: ')' :: post) := rfl
  rw [h3, expect_append]
  simp only []
  rw [(takeWhile_app_eq (bne_quote_of_not_mem hqc4) hbq).1,
    (takeWhile_app_eq (bne_quote_of_not_mem hqc4) hbq).2,
    if_neg (isEmpty_false_of_ne hc4)]
  have h4 : ('"' :: ')' :: post) = str "\")" ++ post := rfl
  rw [h4, expect_append]

/-- If the tail pattern matches at some offset, the lazy search succeeds. -/
theorem searchTail_isSome {u : List Char} {r : List Char × List Char}
    (h : matchTail u = some r) :
    ∀ mid : List Char, (searchTail (mid ++ u)).isSome = true := by
  intro mid
  induction mid with
  | nil =>
    cases u with
    | nil => simp [matchTail, expect, List.isPrefixOf] at h
    | cons c t' =>
      rw [List.nil_append, searchTail, h]
      rfl
  | cons m mid' ih =>
    rw [List.cons_append, searchTail]
    cases hm : matchTail (m :: (mid' ++ u)) with
    | some r' => rfl
    | none => exact ih

/-- Completeness of the anchored error matcher on a template-shaped input. -/
theorem matchErrAt_isSome (c i t c4 mid post : List Char)
    (hc : c ≠ []) (hqc : ¬ '"' ∈ c)
    (hi : i ≠ []) (hqi : ¬ '"' ∈ i) (ht : t ≠ []) (hqt : ¬ '"' ∈ t)
    (hc4 : c4 ≠ []) (hqc4 : ¬ '"' ∈ c4) :
    (matchErrAt (str "column \"" ++ c ++ str "\" does not exist" ++ mid ++
      str "CREATE INDEX IF NOT EXISTS \"" ++ i ++ str "\" ON \"" ++ t ++
      str "\" USING btree (\"" ++ c4 ++ str "\")" ++ post)).isSome = true := by
  have hbq : (fun x => x != '"') '"' = false := by decide
  have hfull : str "column \"" ++ c ++ str "\" does not exist" ++ mid ++
      str "CREATE INDEX IF NOT EXISTS \"" ++ i ++ str "\" ON \"" ++ t ++
      str "\" USING btree (\"" ++ c4 ++ str "\")" ++ post
      = str "column \"" ++
        (c ++ '"' :: (str " does not exist" ++ (mid ++
          (str "CREATE INDEX IF NOT EXISTS \"" ++ i ++ str "\" ON \"" ++ t ++
            str "\" USING btree (\"" ++ c4 ++ str "\")" ++ post)))) := by
    simp only [List.append_assoc]
    rfl
  rw [hfull]
  unfold matchErrAt
  rw [expect_append]
  simp only []
  rw [(takeWhile_app_eq (bne_quote_of_not_mem hqc) hbq).1,
    (takeWhile_app_eq (bne_quote_of_not_mem hqc) hbq).2,
    if_neg (isEmpty_false_of_ne hc)]
  have h2 : ('"' :: (str " does not exist" ++ (mid ++
      (str "CREATE INDEX IF NOT EXISTS \"" ++ i ++ str "\" ON \"" ++ t ++
        str "\" USING btree (\"" ++ c4 ++ str "\")" ++ post))))
      = str "\" does not exist" ++ (mid ++
        (str "CREATE INDEX IF NOT EXISTS \"" ++ i ++ str "\" ON \"" ++ t ++
          str "\" USING btree (\"" ++ c4 ++ str "\")" ++ post)) := rfl
  rw [h2, expect_append]
  simp only []
  have hmt := matchTail_complete i t c4 post hi hqi ht hqt hc4 hqc4
  have hst := searchTail_isSome hmt mid
  obtain ⟨it, hit⟩ := Option.isSome_iff_exists.mp hst
  rw [hit]
  obtain ⟨i0, t0⟩ := it
  rfl

/-- Completeness of `extract_error_info` (claim C7, other direction): it
succeeds on any output containing the error pattern. -/
theorem extract_error_info_isSome {s c i t c4 : List Char}
    (h : ErrPattern s c i t c4) : (extract_error_info s).isSome = true := by
  obtain ⟨pre, mid, post, hs, hc, hqc, hi, hqi, ht, hqt, hc4, hqc4⟩ := h
  subst hs
  induction pre with
  | nil =>
    rw [List.nil_append]
    have hma := matchErrAt_isSome c i t c4 mid post hc hqc hi hqi ht hqt hc4 hqc4
    obtain ⟨r, hr⟩ := Option.isSome_iff_exists.mp hma
    have hne : str "column \"" ++ c ++ str "\" does not exist" ++ mid ++
        str "CREATE INDEX IF NOT EXISTS \"" ++ i ++ str "\" ON \"" ++ t ++
        str "\" USING btree (\"" ++ c4 ++ str "\")" ++ post
        = 'c' :: (str "olumn \"" ++ c ++ str "\" does not exist" ++ mid ++
          str "CREATE INDEX IF NOT EXISTS \"" ++ i ++ str "\" ON \"" ++ t ++
          str "\" USING btree (\"" ++ c4 ++ str "\")" ++ post) := by
      simp only [List.append_assoc]
      rfl
    rw [hne] at hr ⊢
    rw [extract_error_info, hr]
    rfl
  | cons p pre' ih =>
    simp only [List.cons_append]
    rw [extract_error_info]
    cases hm : matchErrAt (p :: (pre' ++ str "column \"" ++ c ++
        str "\" does not exist" ++ mid ++ str "CREATE INDEX IF NOT EXISTS \"" ++ i ++
        str "\" ON \"" ++ t ++ str "\" USING btree (\"" ++ c4 ++
        str "\")" ++ post)) with
    | some r => rfl
    | none => simpa using ih

/-- Claim C7: `extract_error_info` returns exactly the (column, index, table)
triple of an occurrence of the known failure pattern when the output contains
one (soundness and completeness of the extraction), returns
`("foo", "idx_foo", "bar")` on the documented example, and returns
`(None, None, None)` on every string without such an occurrence. -/
theorem c7_extract_error_info_spec :
    (∀ s c i t, extract_error_info s = some (c, i, t) → ∃ c4, ErrPattern s c i t c4) ∧
    (∀ s c i t c4, ErrPattern s c i t c4 →
        ∃ c' i' t', extract_error_info s = some (c', i', t') ∧
          ∃ c4', ErrPattern s c' i' t' c4') ∧
    (∀ s, (∀ c i t c4, ¬ ErrPattern s c i t c4) → extract_error_info s = none) ∧
    extract_error_info (str "ERROR: Error running migrations\nerror: column \"foo\" does not exist\nstatement: CREATE INDEX IF NOT EXISTS \"idx_foo\" ON \"bar\" USING btree (\"foo\")") =
      some (str "foo", str "idx_foo", str "bar") := by
  refine ⟨fun s c i t h => extract_error_info_sound h, ?_, ?_, by decide⟩
  · intro s c i t c4 h
    have hsome := extract_error_info_isSome h
    obtain ⟨r, hr⟩ := Option.isSome_iff_exists.mp hsome
    obtain ⟨c', i', t'⟩ := r
    exact ⟨c', i', t', hr, extract_error_info_sound hr⟩
  · intro s hnone
    cases hx : extract_error_info s with
    | none => rfl
    | some r =>
      obtain ⟨c, i, t⟩ := r
      obtain ⟨c4, hp⟩ := extract_error_info_sound hx
      exact absurd hp (hnone c i t c4)

/-- Witness for C7: the success case applied at the documented example. -/
theorem c7_extract_error_info_spec_witness :
    ∃ c4, ErrPattern (str "ERROR: Error running migrations\nerror: column \"foo\" does not exist\nstatement: CREATE INDEX IF NOT EXISTS \"idx_foo\" ON \"bar\" USING btree (\"foo\")")
      (str "foo") (str "idx_foo") (str "bar") c4 :=
  c7_extract_error_info_spec.1 _ (str "foo") (str "idx_foo") (str "bar") (by decide)

theorem infix_of_isPrefixOf {p l : List Char} (h : p <+: l) : p <:+: l := by
  obtain ⟨z, hz⟩ := h
  exact ⟨[], z, by rw [List.nil_append, hz]⟩

/-- `re.sub` touches nothing when the pattern does not occur. -/
theorem replaceAll_of_not_infix {p : List Char} (r : List Char) {s : List Char}
    (h : ¬ p <:+: s) : replaceAll p r s = s := by
  induction s with
  | nil =>
    have hp : p ≠ [] := by
      intro he
      exact h (he ▸ ⟨[], [], by simp⟩)
    rw [replaceAll]
    rw [dif_neg (by simp [hp, List.isPrefixOf_iff_prefix, List.prefix_nil])]
  | cons c t ih =>
    have hnp : ¬ p.isPrefixOf (c :: t) = true := by
      intro hpre
      exact h (infix_of_isPrefixOf (List.isPrefixOf_iff_prefix.mp hpre))
    rw [replaceAll]
    rw [dif_neg (by simp [hnp])]
    have ht : ¬ p <:+: t := fun hit => h (hit.trans (List.suffix_cons c t).isInfix)
    show c :: replaceAll p r t = c :: t
    rw [ih ht]

/-- `re.sub` replaces an occurrence at a position before which the pattern
does not occur, and goes on scanning after it. -/
theorem replaceAll_head_match {p : List Char} (r : List Char) (hp : p ≠ []) :
    ∀ (x : List Char) (w : List Char), ¬ p <:+: (x ++ p.dropLast) →
      replaceAll p r (x ++ p ++ w) = x ++ r ++ replaceAll p r w := by
  intro x
  induction x with
  | nil =>
    intro w _h
    simp only [List.nil_append]
    rw [replaceAll]
    rw [dif_pos ⟨hp, List.isPrefixOf_iff_prefix.mpr (List.prefix_append p w)⟩,
      List.drop_left]
  | cons c x' ih =>
    intro w h
    have hlen : p.length ≤ ((c :: x') ++ p.dropLast).length := by
      simp only [List.length_append, List.length_cons, List.length_dropLast]
      have : 0 < p.length := List.length_pos.mpr hp
      omega
    have hnp : ¬ p.isPrefixOf ((c :: x') ++ p ++ w) = true := by
      intro hpre
      have hpre' : p <+: (c :: x') ++ p ++ w := List.isPrefixOf_iff_prefix.mp hpre
      have hsplit : (c :: x') ++ p ++ w =
          ((c :: x') ++ p.dropLast) ++ (p.getLast hp :: w) := by
        conv_lhs => rw [← List.dropLast_append_getLast hp]
        simp [List.append_assoc]
      have htake : p = ((c :: x') ++ p.dropLast).take p.length := by
        have h1 := List.prefix_iff_eq_take.mp hpre'
        rw [hsplit, List.take_append_of_le_length hlen] at h1
        exact h1
      exact h (infix_of_isPrefixOf (List.prefix_iff_eq_take.mpr htake))
    have hx' : ¬ p <:+: (x' ++ p.dropLast) := by
      intro hx
      exact h (hx.trans (List.suffix_cons c (x' ++ p.dropLast)).isInfix)
    have harr : (c :: x') ++ p ++ w = c :: (x' ++ p ++ w) := by
      simp [List.append_assoc]
    have hnp' : ¬ p.isPrefixOf (c :: (x' ++ p ++ w)) = true := by
      rw [← harr]
      exact hnp
    rw [harr]
    rw [replaceAll]
    rw [dif_neg (fun hcon => hnp' hcon.2)]
    show c :: replaceAll p r (x' ++ p ++ w) = (c :: x') ++ r ++ replaceAll p r w
    rw [ih w hx']
    simp [List.append_assoc]

theorem patOf_ne_nil (i t c : List Char) : patOf i t c ≠ [] := by
  unfold patOf
  simp [str]

/-- Claim C10 (corrected): for backslash-free names, `fix_index_in_migration`
succeeds, always writes the file back and prints the `Fixed index ...`
message; when the pattern is absent the content is written back unchanged;
and the `re.sub` substitution is unbounded: every occurrence of the targeted
statement is replaced, not exactly one.  The backslash proviso is the
correction: a captured name containing a backslash escape makes `re.sub`
raise while compiling the replacement template, before any write or print
(see the counterexample). -/
theorem c10_fix_index_in_migration_unbounded :
    (∀ t c i content, ¬ '\\' ∈ t → ¬ '\\' ∈ c → ¬ '\\' ∈ i →
        fix_index_in_migration t c i content =
          Except.ok ⟨replaceAll (patOf i t c) (replOf i t c) content, true, true⟩) ∧
    (∀ t c i content, ¬ '\\' ∈ t → ¬ '\\' ∈ c → ¬ '\\' ∈ i →
        ¬ patOf i t c <:+: content →
        fix_index_in_migration t c i content = Except.ok ⟨content, true, true⟩) ∧
    (∀ t c i x y z, ¬ '\\' ∈ t → ¬ '\\' ∈ c → ¬ '\\' ∈ i →
        ¬ patOf i t c <:+: (x ++ (patOf i t c).dropLast) →
        ¬ patOf i t c <:+: (y ++ (patOf i t c).dropLast) →
        ¬ patOf i t c <:+: z →
        fix_index_in_migration t c i
            (x ++ patOf i t c ++ y ++ patOf i t c ++ z) =
          Except.ok ⟨x ++ replOf i t c ++ y ++ replOf i t c ++ z, true, true⟩) := by
  refine ⟨?_, ?_, ?_⟩
  · intro t c i content ht hc hi
    exact fix_ok_of_no_bs ht hc hi content
  · intro t c i content ht hc hi h
    rw [fix_ok_of_no_bs ht hc hi content, replaceAll_of_not_infix (replOf i t c) h]
  · intro t c i x y z ht hc hi hx hy hz
    rw [fix_ok_of_no_bs ht hc hi _]
    have hp := patOf_ne_nil i t c
    have harr : x ++ patOf i t c ++ y ++ patOf i t c ++ z =
        x ++ patOf i t c ++ (y ++ patOf i t c ++ z) := by
      simp [List.append_assoc]
    rw [harr, replaceAll_head_match (replOf i t c) hp x (y ++ patOf i t c ++ z) hx,
      replaceAll_head_match (replOf i t c) hp y z hy,
      replaceAll_of_not_infix (replOf i t c) hz]
    simp [List.append_assoc]

set_option maxRecDepth 100000 in
/-- Witness for C10: both occurrences of the target statement in a two-statement
file get replaced, the write and print flags set. -/
theorem c10_fix_index_in_migration_unbounded_witness :
    ¬ patOf (str "i1") (str "t1") (str "c1") <:+:
        (str "A\n" ++ (patOf (str "i1") (str "t1") (str "c1")).dropLast) ∧
    ¬ patOf (str "i1") (str "t1") (str "c1") <:+:
        (str "B\n" ++ (patOf (str "i1") (str "t1") (str "c1")).dropLast) ∧
    ¬ patOf (str "i1") (str "t1") (str "c1") <:+: str "C\n" ∧
    fix_index_in_migration (str "t1") (str "c1") (str "i1")
        (str "A\n" ++ patOf (str "i1") (str "t1") (str "c1") ++ str "B\n" ++
          patOf (str "i1") (str "t1") (str "c1") ++ str "C\n") =
      Except.ok ⟨str "A\n" ++ replOf (str "i1") (str "t1") (str "c1") ++ str "B\n" ++
        replOf (str "i1") (str "t1") (str "c1") ++ str "C\n", true, true⟩ :=
  ⟨by decide, by decide, by decide,
    c10_fix_index_in_migration_unbounded.2.2 (str "t1") (str "c1") (str "i1")
      (str "A\n") (str "B\n") (str "C\n") (by decide) (by decide) (by decide)
      (by decide) (by decide) (by decide)⟩

set_option maxRecDepth 1000000 in
/-- Counterexample to C10's original unconditional claim: with a captured
column name containing backslash-one, `re.sub` raises `invalid group
reference` while compiling the replacement template — before any write or
print, even though the pattern does not occur in the one-statement file —
and with backslash-q it raises `bad escape`. -/
theorem c10_fix_index_in_migration_counterexample :
    fix_index_in_migration (str "tbl") (str "a\\1b") (str "idx") (str "SELECT 1;") =
      Except.error (TemplateError.invalidGroupReference 1) ∧
    fix_index_in_migration (str "tbl") (str "a\\qb") (str "idx") (str "SELECT 1;") =
      Except.error (TemplateError.badEscape 'q') :=
  ⟨rfl, rfl⟩

/-- Each line is either kept or rewritten in place. -/
theorem step_cases (l : List Char) (n : Option (List Char)) :
    step l n = l ∨ step l n = fix_index_creation l := by
  unfold step
  by_cases h1 : (containsSub CImark l && !containsSub DOmark l) = true
  · rw [if_pos h1]
    cases n with
    | none => exact Or.inr rfl
    | some nxt =>
      simp only []
      by_cases h2 : containsSub DOmark nxt = true
      · rw [if_pos h2]; exact Or.inl rfl
      · rw [if_neg h2]; exact Or.inr rfl
  · rw [if_neg h1]; exact Or.inl rfl

theorem processLines_length (L : List (List Char)) :
    (processLines L).length = L.length := by
  induction L with
  | nil => rfl
  | cons l rest ih => simp [processLines, ih]

theorem head?_eq_get?_zero (L : List (List Char)) : L.head? = L.get? 0 := by
  cases L <;> rfl

/-- Claim C9: the one-shot patcher never reorders statements: the output has
one entry per input line, each entry is the input line itself or its in-place
rewrite; a `CREATE INDEX` line whose immediately following line contains the
`DO $$` marker is kept unchanged; and the output path equals the input path. -/
theorem c9_in_place_no_reorder :
    (∀ L : List (List Char), (processLines L).length = L.length) ∧
    (∀ (L : List (List Char)) (k : Nat) (l : List Char), L.get? k = some l →
        (processLines L).get? k = some l ∨
          (processLines L).get? k = some (fix_index_creation l)) ∧
    (∀ (L : List (List Char)) (k : Nat) (l nxt : List Char),
        L.get? k = some l → L.get? (k + 1) = some nxt →
        containsSub CImark l = true → containsSub DOmark l = false →
        containsSub DOmark nxt = true →
        (processLines L).get? k = some l) ∧
    inputFile = outputFile := by
  refine ⟨processLines_length, ?_, ?_, rfl⟩
  · intro L
    induction L with
    | nil => intro k l h; simp at h
    | cons x rest ih =>
      intro k l h
      cases k with
      | zero =>
        have hxl : x = l := by simpa using h
        subst hxl
        rcases step_cases x rest.head? with hs | hs
        · exact Or.inl (by simp [processLines, hs])
        · exact Or.inr (by simp [processLines, hs])
      | succ n =>
        have h' : rest.get? n = some l := by simpa using h
        rcases ih n l h' with hc | hc
        · exact Or.inl (by simpa [processLines] using hc)
        · exact Or.inr (by simpa [processLines] using hc)
  · intro L
    induction L with
    | nil => intro k l nxt h; simp at h
    | cons x rest ih =>
      intro k l nxt h hnext hci hdo hdon
      cases k with
      | zero =>
        have hxl : x = l := by simpa using h
        subst hxl
        have hhead : rest.head? = some nxt := by
          rw [head?_eq_get?_zero]
          simpa using hnext
        have hstep : step x rest.head? = x := by
          unfold step
          rw [if_pos (by rw [hci, hdo]; rfl), hhead]
          simp only []
          rw [if_pos hdon]
        simp [processLines, hstep]
      | succ n =>
        have h' : rest.get? n = some l := by simpa using h
        have hnext' : rest.get? (n + 1) = some nxt := by simpa using hnext
        have := ih n l nxt h' hnext' hci hdo hdon
        simpa [processLines] using this

/-- Witness for C9: an already-fixed index statement (next line starts a
`DO $$` block) is kept unchanged at its position. -/
theorem c9_in_place_no_reorder_witness :
    containsSub CImark (str "CREATE INDEX IF NOT EXISTS \"i\" ON \"t\" USING btree (\"c\");--> statement-breakpoint\n") = true ∧
      (processLines [str "CREATE INDEX IF NOT EXISTS \"i\" ON \"t\" USING btree (\"c\");--> statement-breakpoint\n", str "DO $$\n"]).get? 0 =
        some (str "CREATE INDEX IF NOT EXISTS \"i\" ON \"t\" USING btree (\"c\");--> statement-breakpoint\n") :=
  ⟨by decide,
    c9_in_place_no_reorder.2.2.1
      [str "CREATE INDEX IF NOT EXISTS \"i\" ON \"t\" USING btree (\"c\");--> statement-breakpoint\n", str "DO $$\n"]
      0 (str "CREATE INDEX IF NOT EXISTS \"i\" ON \"t\" USING btree (\"c\");--> statement-breakpoint\n")
      (str "DO $$\n") rfl rfl (by decide) (by decide) (by decide)⟩

theorem prefix_append_of_le {q L z : List Char} (h : q <+: L ++ z)
    (hlen : q.length ≤ L.length) : q <+: L := by
  have h1 := List.prefix_iff_eq_take.mp h
  rw [List.take_append_of_le_length hlen] at h1
  exact List.prefix_iff_eq_take.mpr h1

theorem countOccs_append (P a b : List Char)
    (h : ∀ k, 0 < k → k < P.length → ¬ (P.take k <:+ a ∧ P.drop k <+: b)) :
    countOccs P (a ++ b) = countOccs P a + countOccs P b := by
  induction a with
  | nil => simp [countOccs]
  | cons c a' ih =>
    have h' : ∀ k, 0 < k → k < P.length → ¬ (P.take k <:+ a' ∧ P.drop k <+: b) :=
      fun k hk0 hk1 hand =>
        h k hk0 hk1 ⟨hand.1.trans (List.suffix_cons c a'), hand.2⟩
    have hhead : P.isPrefixOf ((c :: a') ++ b) = P.isPrefixOf (c :: a') := by
      by_cases hp : P.isPrefixOf (c :: a') = true
    -- a prefix of the front extends to the concatenation
      · rw [hp]
        exact List.isPrefixOf_iff_prefix.mpr
          ((List.isPrefixOf_iff_prefix.mp hp).trans (List.prefix_append (c :: a') b))
      · rw [Bool.eq_false_iff.mpr hp]
        rw [Bool.eq_false_iff]
        intro hpp
        have hpre : P <+: (c :: a') ++ b := List.isPrefixOf_iff_prefix.mp hpp
        by_cases hlen : P.length ≤ (c :: a').length
        · exact hp (List.isPrefixOf_iff_prefix.mpr (prefix_append_of_le hpre hlen))
        · have hk0 : 0 < (c :: a').length := by simp
          have hk1 : (c :: a').length < P.length := by omega
          have htk : P.take (c :: a').length = c :: a' := by
            have h1 := List.prefix_iff_eq_take.mp hpre
            have h2 : (P.take (c :: a').length) =
                ((c :: a') ++ b).take (c :: a').length := by
              conv_lhs => rw [h1]
              rw [List.take_take]
              congr 1
              omega
            rw [List.take_append_of_le_length (Nat.le_refl _), List.take_length] at h2
            exact h2
          have hdr : P.drop (c :: a').length <+: b := by
            obtain ⟨z, hz⟩ := hpre
            have hP : P = (c :: a') ++ P.drop (c :: a').length := by
              conv_lhs => rw [← List.take_append_drop (c :: a').length P]
              rw [htk]
            refine ⟨z, ?_⟩
            conv_lhs at hz => rw [hP]
            rw [List.append_assoc] at hz
            exact List.append_cancel_left hz
          exact h (c :: a').length hk0 hk1
            ⟨(by rw [htk] : P.take (c :: a').length <:+ c :: a'), hdr⟩
    rw [List.cons_append, countOccs, ← List.cons_append, hhead, ih h', countOccs]
    omega

theorem countOccs_eq_zero {P s : List Char} {b : Char} (hb : b ∈ P) (hs : ¬ b ∈ s) :
    countOccs P s = 0 := by
  induction s with
  | nil => rfl
  | cons c t ih =>
    rw [countOccs]
    have hnp : ¬ P.isPrefixOf (c :: t) = true := by
      intro hp
      exact hs ((List.isPrefixOf_iff_prefix.mp hp).subset hb)
    rw [if_neg hnp, ih (fun hm => hs (List.mem_cons_of_mem c hm))]

/-- Peeling a concrete literal off the front: no straddle because no short
prefix of the pattern is a suffix of the literal. -/
theorem countOccs_append_lit (P X R : List Char)
    (hk : ∀ k, 0 < k → k < P.length → ¬ P.take k <:+ X) :
    countOccs P (X ++ R) = countOccs P X + countOccs P R :=
  countOccs_append P X R (fun k hk0 hk1 hand => hk k hk0 hk1 hand.1)

/-- Peeling an identifier hole off the front: a straddle would either put a
non-identifier pattern character inside the hole or require the rest of the
pattern to start the following text. -/
theorem countOccs_append_ident (P h R : List Char)
    (hid : ∀ x ∈ h, isIdentChar x = true)
    (hk : ∀ k, 0 < k → k < P.length →
      (∀ x ∈ P.take k, isIdentChar x = true) → ¬ P.drop k <+: R) :
    countOccs P (h ++ R) = countOccs P h + countOccs P R := by
  refine countOccs_append P h R (fun k hk0 hk1 hand => ?_)
  have hident : ∀ x ∈ P.take k, isIdentChar x = true :=
    fun x hx => hid x (hand.1.subset hx)
  exact hk k hk0 hk1 hident hand.2

/-! ## Identifier facts and the column-list round trip -/

theorem not_mem_of_all_ident {b : Char} (hb : isIdentChar b = false) {l : List Char}
    (h : ∀ x ∈ l, isIdentChar x = true) : ¬ b ∈ l :=
  fun hm => Bool.false_ne_true (hb ▸ h b hm)

theorem bne_all_of_not_mem {b : Char} {l : List Char} (h : ¬ b ∈ l) :
    ∀ y ∈ l, (fun x => x != b) y = true := by
  intro y hy
  simp only [bne_iff_ne, ne_eq]
  intro he
  exact h (he ▸ hy)

theorem dropWhile_all_false {p : Char → Bool} {l : List Char}
    (h : ∀ x ∈ l, p x = false) : l.dropWhile p = l := by
  induction l with
  | nil => rfl
  | cons c t ih =>
    rw [List.dropWhile_cons, if_neg (by rw [h c (by simp)]; simp)]

theorem dropTrailing_last {p : Char → Bool} {b : Char} (hb : p b = false)
    (a : List Char) : dropTrailingWhile p (a ++ [b]) = a ++ [b] := by
  unfold dropTrailingWhile
  rw [List.reverse_append]
  show ((b :: a.reverse).dropWhile p).reverse = a ++ [b]
  rw [List.dropWhile_cons, if_neg (by rw [hb]; simp)]
  rw [List.reverse_cons, List.reverse_reverse]

theorem splitComma_no_comma {l : List Char} (h : ¬ ',' ∈ l) : splitComma l = [l] := by
  induction l with
  | nil => rfl
  | cons c t ih =>
    rw [splitComma]
    rw [if_neg (show ¬ c = ',' from fun he => h (by rw [← he]; exact List.mem_cons_self c t))]
    rw [ih (fun hm => h (List.mem_cons_of_mem c hm))]

theorem splitComma_append {a : List Char} (h : ¬ ',' ∈ a) (r : List Char) :
    splitComma (a ++ ',' :: r) = a :: splitComma r := by
  induction a with
  | nil =>
    rw [List.nil_append, splitComma, if_pos rfl]
  | cons c a' ih =>
    rw [List.cons_append, splitComma]
    rw [if_neg (show ¬ c = ',' from fun he => h (by rw [← he]; exact List.mem_cons_self c a'))]
    rw [ih (fun hm => h (List.mem_cons_of_mem c hm))]

/-- `"\"" ++ c ++ "\""` survives `strip()` and loses exactly its quotes under
`strip('"')`. -/
theorem stripQS_quoted {c : List Char} (hc : c ≠ []) (hq : ¬ '"' ∈ c)
    (hws : ∀ x ∈ c, isPySpace x = false) :
    stripQuotes (stripWS (str "\"" ++ c ++ str "\"")) = c := by
  have hsh : str "\"" ++ c ++ str "\"" = '"' :: (c ++ ['"']) := by
    simp only [List.append_assoc]
    rfl
  rw [hsh]
  have hws1 : stripWS ('"' :: (c ++ ['"'])) = '"' :: (c ++ ['"']) := by
    unfold stripWS
    rw [List.dropWhile_cons, if_neg (by decide)]
    show dropTrailingWhile isPySpace (('"' :: c) ++ ['"']) = '"' :: (c ++ ['"'])
    rw [dropTrailing_last (by decide) ('"' :: c)]
    simp
  rw [hws1]
  unfold stripQuotes
  rw [List.dropWhile_cons, if_pos (by decide)]
  cases c with
  | nil => exact absurd rfl hc
  | cons x c' =>
    have hx : (x == '"') = false := by
      have : x ≠ '"' := fun he => hq (he ▸ List.mem_cons_self x c')
      simp [this]
    rw [List.cons_append, List.dropWhile_cons, if_neg (by rw [hx]; simp)]
    show dropTrailingWhile (· == '"') ((x :: c') ++ ['"']) = x :: c'
    unfold dropTrailingWhile
    rw [List.reverse_append]
    show (('"' :: (x :: c').reverse).dropWhile (· == '"')).reverse = x :: c'
    rw [List.dropWhile_cons, if_pos (by decide)]
    rw [dropWhile_all_false (fun y hy => by
      have hyq : y ≠ '"' := fun he => hq (he ▸ (List.mem_reverse.mp hy))
      simp [hyq])]
    exact List.reverse_reverse _

/-- The column list of a single quoted column. -/
theorem columnList_quoted {c : List Char} (hc : c ≠ []) (hq : ¬ '"' ∈ c)
    (hcomma : ¬ ',' ∈ c) (hws : ∀ x ∈ c, isPySpace x = false) :
    columnList (str "\"" ++ c ++ str "\"") = [c] := by
  unfold columnList
  have hnc : ¬ ',' ∈ str "\"" ++ c ++ str "\"" := by
    intro hm
    simp only [List.mem_append] at hm
    rcases hm with (hm | hm) | hm
    · simp [str] at hm
    · exact hcomma hm
    · simp [str] at hm
  rw [splitComma_no_comma hnc, List.map_cons, List.map_nil,
    stripQS_quoted hc hq hws]

/-- Completeness of the one-shot rewriter's regex on a well-formed
`CREATE INDEX` line (with arbitrary trailing text, as under `re.match`). -/
theorem parseCreateIndex_complete (i t cs rem : List Char)
    (hi : i ≠ []) (hqi : ¬ '"' ∈ i) (ht : t ≠ []) (hqt : ¬ '"' ∈ t)
    (hcs : cs ≠ []) (hqcs : ¬ ')' ∈ cs) :
    parseCreateIndex (str "CREATE INDEX IF NOT EXISTS \"" ++ i ++ str "\" ON \"" ++ t ++
      str "\" USING btree (" ++ cs ++ str ");--> statement-breakpoint" ++ rem) =
      some (i, t, cs) := by
  have hbq : (fun x => x != '"') '"' = false := by decide
  have hbp : (fun x => x != ')') ')' = false := by decide
  have hfull : str "CREATE INDEX IF NOT EXISTS \"" ++ i ++ str "\" ON \"" ++ t ++
      str "\" USING btree (" ++ cs ++ str ");--> statement-breakpoint" ++ rem
      = str "CREATE INDEX IF NOT EXISTS \"" ++
        (i ++ '"' :: (str " ON \"" ++ (t ++ '"' :: (str " USING btree (" ++
          (cs ++ ')' :: (str ";--> statement-breakpoint" ++ rem)))))) := by
    simp only [List.append_assoc]
    rfl
  rw [hfull]
  unfold parseCreateIndex
  rw [expect_append]
  simp only []
  rw [(takeWhile_app_eq (bne_all_of_not_mem hqi) hbq).1,
    (takeWhile_app_eq (bne_all_of_not_mem hqi) hbq).2,
    if_neg (isEmpty_false_of_ne hi)]
  have h2 : ('"' :: (str " ON \"" ++ (t ++ '"' :: (str " USING btree (" ++
      (cs ++ ')' :: (str ";--> statement-breakpoint" ++ rem))))))
      = str "\" ON \"" ++ (t ++ '"' :: (str " USING btree (" ++
        (cs ++ ')' :: (str ";--> statement-breakpoint" ++ rem)))) := rfl
  rw [h2, expect_append]
  simp only []
  rw [(takeWhile_app_eq (bne_all_of_not_mem hqt) hbq).1,
    (takeWhile_app_eq (bne_all_of_not_mem hqt) hbq).2,
    if_neg (isEmpty_false_of_ne ht)]
  have h3 : ('"' :: (str " USING btree (" ++
      (cs ++ ')' :: (str ";--> statement-breakpoint" ++ rem))))
      = str "\" USING btree (" ++ (cs ++ ')' :: (str ";--> statement-breakpoint" ++ rem)) := rfl
  rw [h3, expect_append]
  simp only []
  rw [(takeWhile_app_eq (bne_all_of_not_mem hqcs) hbp).1,
    (takeWhile_app_eq (bne_all_of_not_mem hqcs) hbp).2,
    if_neg (isEmpty_false_of_ne hcs)]
  have h4 : (')' :: (str ";--> statement-breakpoint" ++ rem))
      = str ");--> statement-breakpoint" ++ rem := rfl
  rw [h4, expect_append]

/-- `blockOf` on a single quoted column collapses to the explicit template. -/
theorem blockOf_single (idx t c : List Char) (hc : c ≠ []) (hq : ¬ '"' ∈ c)
    (hcomma : ¬ ',' ∈ c) (hws : ∀ x ∈ c, isPySpace x = false) :
    blockOf idx t (str "\"" ++ c ++ str "\"") = singleBlock idx t c := by
  unfold blockOf singleBlock whereClause
  rw [columnList_quoted hc hq hcomma hws]
  simp only [List.map, joinSep, List.append_assoc]
  rfl

theorem countOccs_lit_step (P X R : List Char) (n : Nat) (hx : countOccs P X = n)
    (hk : ∀ k, k < P.length → 0 < k → ¬ P.take k <:+ X) :
    countOccs P (X ++ R) = n + countOccs P R := by
  rw [countOccs_append_lit P X R (fun k h0 h1 => hk k h1 h0), hx]

theorem countOccs_hole_step (P h Lit Z : List Char) (b : Char) (hbP : b ∈ P)
    (hb : isIdentChar b = false) (hid : ∀ x ∈ h, isIdentChar x = true)
    (hcond : ∀ k, k < P.length → 0 < k →
      (P.drop k).length ≤ Lit.length ∧ ¬ P.drop k <+: Lit) :
    countOccs P (h ++ (Lit ++ Z)) = countOccs P (Lit ++ Z) := by
  have hsplit := countOccs_append P h (Lit ++ Z) (fun k hk0 hk1 hand =>
    (hcond k hk1 hk0).2 (prefix_append_of_le hand.2 (hcond k hk1 hk0).1))
  rw [hsplit, countOccs_eq_zero hbP (not_mem_of_all_ident hb hid), Nat.zero_add]

theorem countOccs_hole_last (P h Lit : List Char) (b : Char) (hbP : b ∈ P)
    (hb : isIdentChar b = false) (hid : ∀ x ∈ h, isIdentChar x = true)
    (hcond : ∀ k, k < P.length → 0 < k → ¬ P.drop k <+: Lit) :
    countOccs P (h ++ Lit) = countOccs P Lit := by
  have hsplit := countOccs_append P h Lit (fun k hk0 hk1 hand =>
    hcond k hk1 hk0 hand.2)
  rw [hsplit, countOccs_eq_zero hbP (not_mem_of_all_ident hb hid), Nat.zero_add]

theorem count_DO_singleBlock (idx t c : List Char)
    (hidx : ∀ x ∈ idx, isIdentChar x = true)
    (hidt : ∀ x ∈ t, isIdentChar x = true)
    (hidc : ∀ x ∈ c, isIdentChar x = true) :
    countOccs (str "DO $$") (singleBlock idx t c) = 1 := by
  have hr : singleBlock idx t c = str "DO $$\nBEGIN\n    IF EXISTS (\n        SELECT 1\n        FROM information_schema.columns\n        WHERE table_name = '" ++ (t ++ (str "'\n        AND (column_name = '" ++ (c ++ (str "')\n    ) THEN\n        CREATE INDEX IF NOT EXISTS \"" ++ (idx ++ (str "\"\n        ON \"" ++ (t ++ (str "\" USING btree (\"" ++ (c ++ (str "\");\n        RAISE NOTICE 'Created index " ++ (idx ++ (str "';\n    ELSE\n        RAISE NOTICE 'Column(s) do not exist in " ++ (t ++ (str " table, skipping index creation';\n    END IF;\nEND$$;--> statement-breakpoint")))))))))))))) := by
    unfold singleBlock
    simp only [List.append_assoc]
  rw [hr]
  rw [countOccs_lit_step (str "DO $$") (str "DO $$\nBEGIN\n    IF EXISTS (\n        SELECT 1\n        FROM information_schema.columns\n        WHERE table_name = '") (t ++ (str "'\n        AND (column_name = '" ++ (c ++ (str "')\n    ) THEN\n        CREATE INDEX IF NOT EXISTS \"" ++ (idx ++ (str "\"\n        ON \"" ++ (t ++ (str "\" USING btree (\"" ++ (c ++ (str "\");\n        RAISE NOTICE 'Created index " ++ (idx ++ (str "';\n    ELSE\n        RAISE NOTICE 'Column(s) do not exist in " ++ (t ++ (str " table, skipping index creation';\n    END IF;\nEND$$;--> statement-breakpoint")))))))))))))) 1 (by decide) (by decide)]
  rw [countOccs_hole_step (str "DO $$") t (str "'\n        AND (column_name = '") (c ++ (str "')\n    ) THEN\n        CREATE INDEX IF NOT EXISTS \"" ++ (idx ++ (str "\"\n        ON \"" ++ (t ++ (str "\" USING btree (\"" ++ (c ++ (str "\");\n        RAISE NOTICE 'Created index " ++ (idx ++ (str "';\n    ELSE\n        RAISE NOTICE 'Column(s) do not exist in " ++ (t ++ (str " table, skipping index creation';\n    END IF;\nEND$$;--> statement-breakpoint")))))))))))) '$' (by decide) (by decide) hidt (by decide)]
  rw [countOccs_lit_step (str "DO $$") (str "'\n        AND (column_name = '") (c ++ (str "')\n    ) THEN\n        CREATE INDEX IF NOT EXISTS \"" ++ (idx ++ (str "\"\n        ON \"" ++ (t ++ (str "\" USING btree (\"" ++ (c ++ (str "\");\n        RAISE NOTICE 'Created index " ++ (idx ++ (str "';\n    ELSE\n        RAISE NOTICE 'Column(s) do not exist in " ++ (t ++ (str " table, skipping index creation';\n    END IF;\nEND$$;--> statement-breakpoint")))))))))))) 0 (by decide) (by decide)]
  rw [countOccs_hole_step (str "DO $$") c (str "')\n    ) THEN\n        CREATE INDEX IF NOT EXISTS \"") (idx ++ (str "\"\n        ON \"" ++ (t ++ (str "\" USING btree (\"" ++ (c ++ (str "\");\n        RAISE NOTICE 'Created index " ++ (idx ++ (str "';\n    ELSE\n        RAISE NOTICE 'Column(s) do not exist in " ++ (t ++ (str " table, skipping index creation';\n    END IF;\nEND$$;--> statement-breakpoint")))))))))) '$' (by decide) (by decide) hidc (by decide)]
  rw [countOccs_lit_step (str "DO $$") (str "')\n    ) THEN\n        CREATE INDEX IF NOT EXISTS \"") (idx ++ (str "\"\n        ON \"" ++ (t ++ (str "\" USING btree (\"" ++ (c ++ (str "\");\n        RAISE NOTICE 'Created index " ++ (idx ++ (str "';\n    ELSE\n        RAISE NOTICE 'Column(s) do not exist in " ++ (t ++ (str " table, skipping index creation';\n    END IF;\nEND$$;--> statement-breakpoint")))))))))) 0 (by decide) (by decide)]
  rw [countOccs_hole_step (str "DO $$") idx (str "\"\n        ON \"") (t ++ (str "\" USING btree (\"" ++ (c ++ (str "\");\n        RAISE NOTICE 'Created index " ++ (idx ++ (str "';\n    ELSE\n        RAISE NOTICE 'Column(s) do not exist in " ++ (t ++ (str " table, skipping index creation';\n    END IF;\nEND$$;--> statement-breakpoint")))))))) '$' (by decide) (by decide) hidx (by decide)]
  rw [countOccs_lit_step (str "DO $$") (str "\"\n        ON \"") (t ++ (str "\" USING btree (\"" ++ (c ++ (str "\");\n        RAISE NOTICE 'Created index " ++ (idx ++ (str "';\n    ELSE\n        RAISE NOTICE 'Column(s) do not exist in " ++ (t ++ (str " table, skipping index creation';\n    END IF;\nEND$$;--> statement-breakpoint")))))))) 0 (by decide) (by decide)]
  rw [countOccs_hole_step (str "DO $$") t (str "\" USING btree (\"") (c ++ (str "\");\n        RAISE NOTICE 'Created index " ++ (idx ++ (str "';\n    ELSE\n        RAISE NOTICE 'Column(s) do not exist in " ++ (t ++ (str " table, skipping index creation';\n    END IF;\nEND$$;--> statement-breakpoint")))))) '$' (by decide) (by decide) hidt (by decide)]
  rw [countOccs_lit_step (str "DO $$") (str "\" USING btree (\"") (c ++ (str "\");\n        RAISE NOTICE 'Created index " ++ (idx ++ (str "';\n    ELSE\n        RAISE NOTICE 'Column(s) do not exist in " ++ (t ++ (str " table, skipping index creation';\n    END IF;\nEND$$;--> statement-breakpoint")))))) 0 (by decide) (by decide)]
  rw [countOccs_hole_step (str "DO $$") c (str "\");\n        RAISE NOTICE 'Created index ") (idx ++ (str "';\n    ELSE\n        RAISE NOTICE 'Column(s) do not exist in " ++ (t ++ (str " table, skipping index creation';\n    END IF;\nEND$$;--> statement-breakpoint")))) '$' (by decide) (by decide) hidc (by decide)]
  rw [countOccs_lit_step (str "DO $$") (str "\");\n        RAISE NOTICE 'Created index ") (idx ++ (str "';\n    ELSE\n        RAISE NOTICE 'Column(s) do not exist in " ++ (t ++ (str " table, skipping index creation';\n    END IF;\nEND$$;--> statement-breakpoint")))) 0 (by decide) (by decide)]
  rw [countOccs_hole_step (str "DO $$") idx (str "';\n    ELSE\n        RAISE NOTICE 'Column(s) do not exist in ") (t ++ (str " table, skipping index creation';\n    END IF;\nEND$$;--> statement-breakpoint")) '$' (by decide) (by decide) hidx (by decide)]
  rw [countOccs_lit_step (str "DO $$") (str "';\n    ELSE\n        RAISE NOTICE 'Column(s) do not exist in ") (t ++ (str " table, skipping index creation';\n    END IF;\nEND$$;--> statement-breakpoint")) 0 (by decide) (by decide)]
  rw [countOccs_hole_last (str "DO $$") t (str " table, skipping index creation';\n    END IF;\nEND$$;--> statement-breakpoint") '$' (by decide) (by decide) hidt (by decide)]
  decide

theorem count_END_singleBlock (idx t c : List Char)
    (hidx : ∀ x ∈ idx, isIdentChar x = true)
    (hidt : ∀ x ∈ t, isIdentChar x = true)
    (hidc : ∀ x ∈ c, isIdentChar x = true) :
    countOccs (str "END$$") (singleBlock idx t c) = 1 := by
  have hr : singleBlock idx t c = str "DO $$\nBEGIN\n    IF EXISTS (\n        SELECT 1\n        FROM information_schema.columns\n        WHERE table_name = '" ++ (t ++ (str "'\n        AND (column_name = '" ++ (c ++ (str "')\n    ) THEN\n        CREATE INDEX IF NOT EXISTS \"" ++ (idx ++ (str "\"\n        ON \"" ++ (t ++ (str "\" USING btree (\"" ++ (c ++ (str "\");\n        RAISE NOTICE 'Created index " ++ (idx ++ (str "';\n    ELSE\n        RAISE NOTICE 'Column(s) do not exist in " ++ (t ++ (str " table, skipping index creation';\n    END IF;\nEND$$;--> statement-breakpoint")))))))))))))) := by
    unfold singleBlock
    simp only [List.append_assoc]
  rw [hr]
  rw [countOccs_lit_step (str "END$$") (str "DO $$\nBEGIN\n    IF EXISTS (\n        SELECT 1\n        FROM information_schema.columns\n        WHERE table_name = '") (t ++ (str "'\n        AND (column_name = '" ++ (c ++ (str "')\n    ) THEN\n        CREATE INDEX IF NOT EXISTS \"" ++ (idx ++ (str "\"\n        ON \"" ++ (t ++ (str "\" USING btree (\"" ++ (c ++ (str "\");\n        RAISE NOTICE 'Created index " ++ (idx ++ (str "';\n    ELSE\n        RAISE NOTICE 'Column(s) do not exist in " ++ (t ++ (str " table, skipping index creation';\n    END IF;\nEND$$;--> statement-breakpoint")))))))))))))) 0 (by decide) (by decide)]
  rw [countOccs_hole_step (str "END$$") t (str "'\n        AND (column_name = '") (c ++ (str "')\n    ) THEN\n        CREATE INDEX IF NOT EXISTS \"" ++ (idx ++ (str "\"\n        ON \"" ++ (t ++ (str "\" USING btree (\"" ++ (c ++ (str "\");\n        RAISE NOTICE 'Created index " ++ (idx ++ (str "';\n    ELSE\n        RAISE NOTICE 'Column(s) do not exist in " ++ (t ++ (str " table, skipping index creation';\n    END IF;\nEND$$;--> statement-breakpoint")))))))))))) '$' (by decide) (by decide) hidt (by decide)]
  rw [countOccs_lit_step (str "END$$") (str "'\n        AND (column_name = '") (c ++ (str "')\n    ) THEN\n        CREATE INDEX IF NOT EXISTS \"" ++ (idx ++ (str "\"\n        ON \"" ++ (t ++ (str "\" USING btree (\"" ++ (c ++ (str "\");\n        RAISE NOTICE 'Created index " ++ (idx ++ (str "';\n    ELSE\n        RAISE NOTICE 'Column(s) do not exist in " ++ (t ++ (str " table, skipping index creation';\n    END IF;\nEND$$;--> statement-breakpoint")))))))))))) 0 (by decide) (by decide)]
  rw [countOccs_hole_step (str "END$$") c (str "')\n    ) THEN\n        CREATE INDEX IF NOT EXISTS \"") (idx ++ (str "\"\n        ON \"" ++ (t ++ (str "\" USING btree (\"" ++ (c ++ (str "\");\n        RAISE NOTICE 'Created index " ++ (idx ++ (str "';\n    ELSE\n        RAISE NOTICE 'Column(s) do not exist in " ++ (t ++ (str " table, skipping index creation';\n    END IF;\nEND$$;--> statement-breakpoint")))))))))) '$' (by decide) (by decide) hidc (by decide)]
  rw [countOccs_lit_step (str "END$$") (str "')\n    ) THEN\n        CREATE INDEX IF NOT EXISTS \"") (idx ++ (str "\"\n        ON \"" ++ (t ++ (str "\" USING btree (\"" ++ (c ++ (str "\");\n        RAISE NOTICE 'Created index " ++ (idx ++ (str "';\n    ELSE\n        RAISE NOTICE 'Column(s) do not exist in " ++ (t ++ (str " table, skipping index creation';\n    END IF;\nEND$$;--> statement-breakpoint")))))))))) 0 (by decide) (by decide)]
  rw [countOccs_hole_step (str "END$$") idx (str "\"\n        ON \"") (t ++ (str "\" USING btree (\"" ++ (c ++ (str "\");\n        RAISE NOTICE 'Created index " ++ (idx ++ (str "';\n    ELSE\n        RAISE NOTICE 'Column(s) do not exist in " ++ (t ++ (str " table, skipping index creation';\n    END IF;\nEND$$;--> statement-breakpoint")))))))) '$' (by decide) (by decide) hidx (by decide)]
  rw [countOccs_lit_step (str "END$$") (str "\"\n        ON \"") (t ++ (str "\" USING btree (\"" ++ (c ++ (str "\");\n        RAISE NOTICE 'Created index " ++ (idx ++ (str "';\n    ELSE\n        RAISE NOTICE 'Column(s) do not exist in " ++ (t ++ (str " table, skipping index creation';\n    END IF;\nEND$$;--> statement-breakpoint")))))))) 0 (by decide) (by decide)]
  rw [countOccs_hole_step (str "END$$") t (str "\" USING btree (\"") (c ++ (str "\");\n        RAISE NOTICE 'Created index " ++ (idx ++ (str "';\n    ELSE\n        RAISE NOTICE 'Column(s) do not exist in " ++ (t ++ (str " table, skipping index creation';\n    END IF;\nEND$$;--> statement-breakpoint")))))) '$' (by decide) (by decide) hidt (by decide)]
  rw [countOccs_lit_step (str "END$$") (str "\" USING btree (\"") (c ++ (str "\");\n        RAISE NOTICE 'Created index " ++ (idx ++ (str "';\n    ELSE\n        RAISE NOTICE 'Column(s) do not exist in " ++ (t ++ (str " table, skipping index creation';\n    END IF;\nEND$$;--> statement-breakpoint")))))) 0 (by decide) (by decide)]
  rw [countOccs_hole_step (str "END$$") c (str "\");\n        RAISE NOTICE 'Created index ") (idx ++ (str "';\n    ELSE\n        RAISE NOTICE 'Column(s) do not exist in " ++ (t ++ (str " table, skipping index creation';\n    END IF;\nEND$$;--> statement-breakpoint")))) '$' (by decide) (by decide) hidc (by decide)]
  rw [countOccs_lit_step (str "END$$") (str "\");\n        RAISE NOTICE 'Created index ") (idx ++ (str "';\n    ELSE\n        RAISE NOTICE 'Column(s) do not exist in " ++ (t ++ (str " table, skipping index creation';\n    END IF;\nEND$$;--> statement-breakpoint")))) 0 (by decide) (by decide)]
  rw [countOccs_hole_step (str "END$$") idx (str "';\n    ELSE\n        RAISE NOTICE 'Column(s) do not exist in ") (t ++ (str " table, skipping index creation';\n    END IF;\nEND$$;--> statement-breakpoint")) '$' (by decide) (by decide) hidx (by decide)]
  rw [countOccs_lit_step (str "END$$") (str "';\n    ELSE\n        RAISE NOTICE 'Column(s) do not exist in ") (t ++ (str " table, skipping index creation';\n    END IF;\nEND$$;--> statement-breakpoint")) 0 (by decide) (by decide)]
  rw [countOccs_hole_last (str "END$$") t (str " table, skipping index creation';\n    END IF;\nEND$$;--> statement-breakpoint") '$' (by decide) (by decide) hidt (by decide)]
  decide

theorem singleBlock_ends_with_delim (idx t c : List Char) :
    str ";--> statement-breakpoint" <:+ singleBlock idx t c := by
  refine ⟨str "DO $$\nBEGIN\n    IF EXISTS (\n        SELECT 1\n        FROM information_schema.columns\n        WHERE table_name = '" ++ t ++ str "'\n        AND (column_name = '" ++ c ++ str "')\n    ) THEN\n        CREATE INDEX IF NOT EXISTS \"" ++ idx ++ str "\"\n        ON \"" ++ t ++ str "\" USING btree (\"" ++ c ++ str "\");\n        RAISE NOTICE 'Created index " ++ idx ++ str "';\n    ELSE\n        RAISE NOTICE 'Column(s) do not exist in " ++ t ++ str " table, skipping index creation';\n    END IF;\nEND$$", ?_⟩
  unfold singleBlock
  simp only [List.append_assoc]
  try rfl

theorem singleBlock_contains_t (idx t c : List Char) :
    t <:+: singleBlock idx t c := by
  refine ⟨str "DO $$\nBEGIN\n    IF EXISTS (\n        SELECT 1\n        FROM information_schema.columns\n        WHERE table_name = '", str "'\n        AND (column_name = '" ++ c ++ str "')\n    ) THEN\n        CREATE INDEX IF NOT EXISTS \"" ++ idx ++ str "\"\n        ON \"" ++ t ++ str "\" USING btree (\"" ++ c ++ str "\");\n        RAISE NOTICE 'Created index " ++ idx ++ str "';\n    ELSE\n        RAISE NOTICE 'Column(s) do not exist in " ++ t ++ str " table, skipping index creation';\n    END IF;\nEND$$;--> statement-breakpoint", ?_⟩
  unfold singleBlock
  simp only [List.append_assoc]
  try rfl

theorem singleBlock_contains_c (idx t c : List Char) :
    c <:+: singleBlock idx t c := by
  refine ⟨str "DO $$\nBEGIN\n    IF EXISTS (\n        SELECT 1\n        FROM information_schema.columns\n        WHERE table_name = '" ++ t ++ str "'\n        AND (column_name = '", str "')\n    ) THEN\n        CREATE INDEX IF NOT EXISTS \"" ++ idx ++ str "\"\n        ON \"" ++ t ++ str "\" USING btree (\"" ++ c ++ str "\");\n        RAISE NOTICE 'Created index " ++ idx ++ str "';\n    ELSE\n        RAISE NOTICE 'Column(s) do not exist in " ++ t ++ str " table, skipping index creation';\n    END IF;\nEND$$;--> statement-breakpoint", ?_⟩
  unfold singleBlock
  simp only [List.append_assoc]
  try rfl

theorem singleBlock_contains_idx (idx t c : List Char) :
    idx <:+: singleBlock idx t c := by
  refine ⟨str "DO $$\nBEGIN\n    IF EXISTS (\n        SELECT 1\n        FROM information_schema.columns\n        WHERE table_name = '" ++ t ++ str "'\n        AND (column_name = '" ++ c ++ str "')\n    ) THEN\n        CREATE INDEX IF NOT EXISTS \"", str "\"\n        ON \"" ++ t ++ str "\" USING btree (\"" ++ c ++ str "\");\n        RAISE NOTICE 'Created index " ++ idx ++ str "';\n    ELSE\n        RAISE NOTICE 'Column(s) do not exist in " ++ t ++ str " table, skipping index creation';\n    END IF;\nEND$$;--> statement-breakpoint", ?_⟩
  unfold singleBlock
  simp only [List.append_assoc]
  try rfl

theorem pyspace_false_of_ident {x : Char} (h : isIdentChar x = true) :
    isPySpace x = false := by
  cases hx : isPySpace x with
  | false => rfl
  | true =>
    exfalso
    simp only [isPySpace, Bool.or_eq_true, beq_iff_eq] at hx
    rcases hx with ((((h1 | h1) | h1) | h1) | h1) | h1 <;> subst h1 <;>
      exact absurd h (by decide)

theorem fix_single_column (idx t c : List Char)
    (hidx1 : idx ≠ []) (hqidx : ¬ '"' ∈ idx)
    (ht1 : t ≠ []) (hqt : ¬ '"' ∈ t)
    (hc1 : c ≠ []) (hqc : ¬ '"' ∈ c) (hpc : ¬ ')' ∈ c)
    (hcomma : ¬ ',' ∈ c) (hws : ∀ x ∈ c, isPySpace x = false) :
    fix_index_creation (str "CREATE INDEX IF NOT EXISTS \"" ++ idx ++ str "\" ON \"" ++
        t ++ str "\" USING btree (\"" ++ c ++ str "\");--> statement-breakpoint") =
      singleBlock idx t c := by
  have hcs1 : str "\"" ++ c ++ str "\"" ≠ [] := by
    intro he
    have hsh : str "\"" ++ c ++ str "\"" = '"' :: (c ++ ['"']) := by
      simp only [List.append_assoc]
      rfl
    rw [hsh] at he
    exact List.cons_ne_nil _ _ he
  have hcsp : ¬ ')' ∈ str "\"" ++ c ++ str "\"" := by
    intro hm
    simp only [List.mem_append] at hm
    rcases hm with (hm | hm) | hm
    · simp [str] at hm
    · exact hpc hm
    · simp [str] at hm
  have hparse := parseCreateIndex_complete idx t (str "\"" ++ c ++ str "\"") []
    hidx1 hqidx ht1 hqt hcs1 hcsp
  have harg : str "CREATE INDEX IF NOT EXISTS \"" ++ idx ++ str "\" ON \"" ++
      t ++ str "\" USING btree (\"" ++ c ++ str "\");--> statement-breakpoint"
      = str "CREATE INDEX IF NOT EXISTS \"" ++ idx ++ str "\" ON \"" ++ t ++
        str "\" USING btree (" ++ (str "\"" ++ c ++ str "\"") ++
        str ");--> statement-breakpoint" ++ [] := by
    simp only [List.append_assoc, List.append_nil]
    rfl
  unfold fix_index_creation
  rw [harg, hparse]
  exact blockOf_single idx t c hc1 hqc hcomma hws

/-- Claim C1: on a well-formed single-column
`CREATE INDEX IF NOT EXISTS "<idx>" ON "<t>" USING btree ("<c>");--> statement-breakpoint`
line (names made of SQL-identifier characters), `fix_index_creation` returns
exactly the one `DO $$ ... END$$` conditional block — the marker strings each
occur exactly once — containing `idx`, `t` and `c` verbatim in the EXISTS
check, the guarded CREATE INDEX and the two RAISE NOTICE branches, and ending
with the preserved `;--> statement-breakpoint` delimiter. -/
theorem c1_single_column_rewrite (idx t c : List Char)
    (hidx1 : idx ≠ []) (hidx : ∀ x ∈ idx, isIdentChar x = true)
    (ht1 : t ≠ []) (hidt : ∀ x ∈ t, isIdentChar x = true)
    (hc1 : c ≠ []) (hidc : ∀ x ∈ c, isIdentChar x = true) :
    fix_index_creation (str "CREATE INDEX IF NOT EXISTS \"" ++ idx ++ str "\" ON \"" ++
        t ++ str "\" USING btree (\"" ++ c ++ str "\");--> statement-breakpoint") =
      singleBlock idx t c ∧
    countOccs (str "DO $$") (singleBlock idx t c) = 1 ∧
    countOccs (str "END$$") (singleBlock idx t c) = 1 ∧
    str ";--> statement-breakpoint" <:+ singleBlock idx t c ∧
    idx <:+: singleBlock idx t c ∧ t <:+: singleBlock idx t c ∧
    c <:+: singleBlock idx t c := by
  refine ⟨?_, count_DO_singleBlock idx t c hidx hidt hidc,
    count_END_singleBlock idx t c hidx hidt hidc,
    singleBlock_ends_with_delim idx t c,
    singleBlock_contains_idx idx t c, singleBlock_contains_t idx t c,
    singleBlock_contains_c idx t c⟩
  exact fix_single_column idx t c hidx1
    (not_mem_of_all_ident (by decide) hidx) ht1
    (not_mem_of_all_ident (by decide) hidt) hc1
    (not_mem_of_all_ident (by decide) hidc)
    (not_mem_of_all_ident (by decide) hidc)
    (not_mem_of_all_ident (by decide) hidc)
    (fun x hx => pyspace_false_of_ident (hidc x hx))

set_option maxRecDepth 100000 in
/-- Witness for C1 at a concrete single-column index statement. -/
theorem c1_single_column_rewrite_witness :
    (str "email" ≠ [] ∧ ∀ x ∈ str "email", isIdentChar x = true) ∧
      fix_index_creation (str "CREATE INDEX IF NOT EXISTS \"" ++ str "idx_users_email" ++
          str "\" ON \"" ++ str "users" ++ str "\" USING btree (\"" ++ str "email" ++
          str "\");--> statement-breakpoint") =
        singleBlock (str "idx_users_email") (str "users") (str "email") ∧
      countOccs (str "DO $$")
        (singleBlock (str "idx_users_email") (str "users") (str "email")) = 1 :=
  ⟨⟨by decide, by decide⟩,
    (c1_single_column_rewrite (str "idx_users_email") (str "users") (str "email")
      (by decide) (by decide) (by decide) (by decide) (by decide) (by decide)).1,
    (c1_single_column_rewrite (str "idx_users_email") (str "users") (str "email")
      (by decide) (by decide) (by decide) (by decide) (by decide) (by decide)).2.1⟩

/-! ## Multi-column indexes (claim C2) -/

theorem quoted_ne_nil (c : List Char) : str "\"" ++ c ++ str "\"" ≠ [] := by
  have hsh : str "\"" ++ c ++ str "\"" = '"' :: (c ++ ['"']) := by
    simp only [List.append_assoc]
    rfl
  rw [hsh]
  exact List.cons_ne_nil _ _

theorem not_prefix_head_ne {p : List Char} {x : Char} {l : List Char}
    (hne : p ≠ []) (h : p.head? ≠ some x) : ¬ p <+: x :: l := by
  intro hp
  cases p with
  | nil => exact hne rfl
  | cons q p' =>
    obtain ⟨z, hz⟩ := hp
    injection hz with h1 _
    exact h (by rw [List.head?_cons, h1])

theorem columnList_multi (cols : List (List Char))
    (hall : ∀ c ∈ cols, c ≠ [] ∧ ∀ x ∈ c, isIdentChar x = true) (hne : cols ≠ []) :
    columnList (joinSep (str ",") (cols.map (fun c => str "\"" ++ c ++ str "\""))) =
      cols := by
  induction cols with
  | nil => exact absurd rfl hne
  | cons c cs' ih =>
    obtain ⟨hc1, hcid⟩ := hall c (List.mem_cons_self c cs')
    have hq : ¬ '"' ∈ c := not_mem_of_all_ident (by decide) hcid
    have hcm : ¬ ',' ∈ c := not_mem_of_all_ident (by decide) hcid
    have hws : ∀ x ∈ c, isPySpace x = false :=
      fun x hx => pyspace_false_of_ident (hcid x hx)
    cases cs' with
    | nil => exact columnList_quoted hc1 hq hcm hws
    | cons c2 rest =>
      have hsh : joinSep (str ",") ((c :: c2 :: rest).map (fun d => str "\"" ++ d ++ str "\""))
          = (str "\"" ++ c ++ str "\"") ++ ',' ::
              joinSep (str ",") ((c2 :: rest).map (fun d => str "\"" ++ d ++ str "\"")) := by
        simp only [List.map, joinSep, List.append_assoc]
        rfl
      have hnc : ¬ ',' ∈ str "\"" ++ c ++ str "\"" := by
        intro hm
        simp only [List.mem_append] at hm
        rcases hm with (hm | hm) | hm
        · simp [str] at hm
        · exact hcm hm
        · simp [str] at hm
      unfold columnList
      rw [hsh, splitComma_append hnc, List.map_cons]
      rw [stripQS_quoted hc1 hq hws]
      congr 1
      have hrec := ih (fun d hd => hall d (List.mem_cons_of_mem c hd)) (by simp)
      unfold columnList at hrec
      exact hrec

theorem count_cond_whereClause (cols : List (List Char))
    (hall : ∀ c ∈ cols, c ≠ [] ∧ ∀ x ∈ c, isIdentChar x = true) :
    countOccs (str "column_name = '") (whereClause cols) = cols.length := by
  induction cols with
  | nil => rfl
  | cons c cs' ih =>
    obtain ⟨hc1, hcid⟩ := hall c (List.mem_cons_self c cs')
    have hne : ¬ '=' ∈ c := not_mem_of_all_ident (by decide) hcid
    cases cs' with
    | nil =>
      have hsh : whereClause [c] = str "column_name = '" ++ (c ++ ['\'']) := by
        unfold whereClause
        simp only [List.map, joinSep, List.append_assoc]
        rfl
      rw [hsh]
      rw [countOccs_lit_step (str "column_name = '") (str "column_name = '")
        (c ++ ['\'']) 1 (by decide) (by decide)]
      rw [@countOccs_eq_zero (str "column_name = '") (c ++ ['\'']) '=' (by decide) (by
        intro hm
        rcases List.mem_append.mp hm with hm | hm
        · exact hne hm
        · simp at hm)]
      rfl
    | cons c2 rest =>
      have hsh : whereClause (c :: c2 :: rest) =
          str "column_name = '" ++
            (c ++ (str "' AND " ++ whereClause (c2 :: rest))) := by
        unfold whereClause
        simp only [List.map, joinSep, List.append_assoc]
        rfl
      rw [hsh]
      rw [countOccs_lit_step (str "column_name = '") (str "column_name = '")
        (c ++ (str "' AND " ++ whereClause (c2 :: rest))) 1 (by decide) (by decide)]
      have hsplit : countOccs (str "column_name = '")
          (c ++ (str "' AND " ++ whereClause (c2 :: rest))) =
          countOccs (str "column_name = '") c +
            countOccs (str "column_name = '")
              (str "' AND " ++ whereClause (c2 :: rest)) := by
        refine countOccs_append _ _ _ (fun k hk0 hk1 hand => ?_)
        obtain ⟨hsuf, hpre⟩ := hand
        rw [(show str "' AND " ++ whereClause (c2 :: rest) =
          '\'' :: (str " AND " ++ whereClause (c2 :: rest)) from rfl)] at hpre
        have hk15 : k < 15 := by
          have hlen : (str "column_name = '").length = 15 := rfl
          rw [hlen] at hk1
          exact hk1
        interval_cases k <;>
          first
            | exact not_prefix_head_ne (by decide) (by decide) hpre
            | exact absurd (hcid ' ' (hsuf.subset (by decide))) (by decide)
      rw [hsplit]
      rw [@countOccs_eq_zero (str "column_name = '") c '=' (by decide) hne]
      rw [countOccs_lit_step (str "column_name = '") (str "' AND ")
        (whereClause (c2 :: rest)) 0 (by decide) (by decide)]
      rw [ih (fun d hd => hall d (List.mem_cons_of_mem c hd))]
      simp only [List.length_cons]
      omega

theorem joinSep_quoted_ne_nil (cols : List (List Char)) (h : cols ≠ []) :
    joinSep (str ",") (cols.map (fun c => str "\"" ++ c ++ str "\"")) ≠ [] := by
  cases cols with
  | nil => exact absurd rfl h
  | cons c cs' =>
    cases cs' with
    | nil => exact quoted_ne_nil c
    | cons c2 rest =>
      have hsh : joinSep (str ",") ((c :: c2 :: rest).map (fun d => str "\"" ++ d ++ str "\""))
          = '"' :: (c ++ (str "\"," ++
              joinSep (str ",") ((c2 :: rest).map (fun d => str "\"" ++ d ++ str "\"")))) := by
        simp only [List.map, joinSep, List.append_assoc]
        rfl
      rw [hsh]
      exact List.cons_ne_nil _ _

theorem not_paren_joinSep (cols : List (List Char))
    (hall : ∀ c ∈ cols, ∀ x ∈ c, isIdentChar x = true) :
    ¬ ')' ∈ joinSep (str ",") (cols.map (fun c => str "\"" ++ c ++ str "\"")) := by
  induction cols with
  | nil => simp [joinSep]
  | cons c cs' ih =>
    have hcq : ¬ ')' ∈ str "\"" ++ c ++ str "\"" := by
      intro hm
      simp only [List.mem_append] at hm
      rcases hm with (hm | hm) | hm
      · simp [str] at hm
      · exact absurd (hall c (List.mem_cons_self c cs') ')' hm) (by decide)
      · simp [str] at hm
    cases cs' with
    | nil => exact hcq
    | cons c2 rest =>
      have hsh : joinSep (str ",") ((c :: c2 :: rest).map (fun d => str "\"" ++ d ++ str "\""))
          = (str "\"" ++ c ++ str "\"") ++ ',' ::
              joinSep (str ",") ((c2 :: rest).map (fun d => str "\"" ++ d ++ str "\"")) := by
        simp only [List.map, joinSep, List.append_assoc]
        rfl
      rw [hsh]
      intro hm
      rcases List.mem_append.mp hm with hm | hm
      · exact hcq hm
      · rcases List.mem_cons.mp hm with hm | hm
        · simp at hm
        · exact ih (fun d hd => hall d (List.mem_cons_of_mem c hd)) hm

/-- The rewriter fires on a multi-column line and produces the block for the
whole columns text. -/
theorem fix_multi_column (idx t : List Char) (cols : List (List Char))
    (hidx1 : idx ≠ []) (hqidx : ¬ '"' ∈ idx)
    (ht1 : t ≠ []) (hqt : ¬ '"' ∈ t) (hcols : cols ≠ [])
    (hall : ∀ c ∈ cols, ∀ x ∈ c, isIdentChar x = true) :
    fix_index_creation (str "CREATE INDEX IF NOT EXISTS \"" ++ idx ++ str "\" ON \"" ++
        t ++ str "\" USING btree (" ++
        joinSep (str ",") (cols.map (fun c => str "\"" ++ c ++ str "\"")) ++
        str ");--> statement-breakpoint") =
      blockOf idx t (joinSep (str ",") (cols.map (fun c => str "\"" ++ c ++ str "\""))) := by
  have hparse := parseCreateIndex_complete idx t
    (joinSep (str ",") (cols.map (fun c => str "\"" ++ c ++ str "\""))) []
    hidx1 hqidx ht1 hqt (joinSep_quoted_ne_nil cols hcols) (not_paren_joinSep cols hall)
  rw [List.append_nil] at hparse
  unfold fix_index_creation
  rw [hparse]

/-- The block embeds the WHERE clause of the EXISTS check. -/
theorem blockOf_contains_where (idx t : List Char) (cols : List (List Char))
    (colsStr : List Char) (hcl : columnList colsStr = cols) :
    (str "AND (" ++ whereClause cols ++ str ")") <:+: blockOf idx t colsStr := by
  refine ⟨str "DO $$\nBEGIN\n    IF EXISTS (\n        SELECT 1\n        FROM information_schema.columns\n        WHERE table_name = '" ++
      t ++ str "'\n        ",
    str "\n    ) THEN\n        CREATE INDEX IF NOT EXISTS \"" ++ idx ++
      str "\"\n        ON \"" ++ t ++ str "\" USING btree (" ++ colsStr ++
      str ");\n        RAISE NOTICE 'Created index " ++ idx ++
      str "';\n    ELSE\n        RAISE NOTICE 'Column(s) do not exist in " ++ t ++
      str " table, skipping index creation';\n    END IF;\nEND$$;--> statement-breakpoint", ?_⟩
  unfold blockOf
  rw [hcl]
  simp only [List.append_assoc]
  try rfl

/-- Claim C2: on a multi-column index statement, the generated EXISTS check's
WHERE clause has exactly one `column_name = '<ci>'` condition per listed
column, joined by `AND`, in the order of the input column list (the code
recovers exactly that column list from the columns text), so creation requires
all listed columns to exist. -/
theorem c2_multi_column_conjunctive (idx t : List Char) (cols : List (List Char))
    (hidx1 : idx ≠ []) (hidx : ∀ x ∈ idx, isIdentChar x = true)
    (ht1 : t ≠ []) (hidt : ∀ x ∈ t, isIdentChar x = true)
    (hcols : cols ≠ [])
    (hall : ∀ c ∈ cols, c ≠ [] ∧ ∀ x ∈ c, isIdentChar x = true) :
    columnList (joinSep (str ",") (cols.map (fun c => str "\"" ++ c ++ str "\""))) =
      cols ∧
    fix_index_creation (str "CREATE INDEX IF NOT EXISTS \"" ++ idx ++ str "\" ON \"" ++
        t ++ str "\" USING btree (" ++
        joinSep (str ",") (cols.map (fun c => str "\"" ++ c ++ str "\"")) ++
        str ");--> statement-breakpoint") =
      blockOf idx t (joinSep (str ",") (cols.map (fun c => str "\"" ++ c ++ str "\""))) ∧
    whereClause cols =
      joinSep (str " AND ") (cols.map (fun c => str "column_name = '" ++ c ++ str "'")) ∧
    countOccs (str "column_name = '") (whereClause cols) = cols.length ∧
    (str "AND (" ++ whereClause cols ++ str ")") <:+:
      blockOf idx t (joinSep (str ",") (cols.map (fun c => str "\"" ++ c ++ str "\""))) := by
  have hcl := columnList_multi cols hall hcols
  refine ⟨hcl, ?_, rfl, count_cond_whereClause cols hall, ?_⟩
  · exact fix_multi_column idx t cols hidx1
      (not_mem_of_all_ident (by decide) hidx) ht1
      (not_mem_of_all_ident (by decide) hidt) hcols (fun c hc => (hall c hc).2)
  · exact blockOf_contains_where idx t cols _ hcl

set_option maxRecDepth 100000 in
/-- Witness for C2 on a two-column index statement. -/
theorem c2_multi_column_conjunctive_witness :
    ([str "a1", str "b2"] : List (List Char)) ≠ [] ∧
      columnList (joinSep (str ",")
        ([str "a1", str "b2"].map (fun c => str "\"" ++ c ++ str "\""))) =
        [str "a1", str "b2"] ∧
      countOccs (str "column_name = '") (whereClause [str "a1", str "b2"]) = 2 :=
  ⟨by decide,
    (c2_multi_column_conjunctive (str "i2") (str "t2") [str "a1", str "b2"]
      (by decide) (by decide) (by decide) (by decide) (by decide)
      (by decide)).1,
    (c2_multi_column_conjunctive (str "i2") (str "t2") [str "a1", str "b2"]
      (by decide) (by decide) (by decide) (by decide) (by decide)
      (by decide)).2.2.2.1⟩

theorem getLast?_cons_of_ne_nil {c : Char} {t : List Char} (h : t ≠ []) :
    (c :: t).getLast? = t.getLast? := by
  cases t with
  | nil => exact absurd rfl h
  | cons d t' => exact List.getLast?_cons_cons

theorem getLast?_append_right {x l : List Char} (h : l ≠ []) :
    (x ++ l).getLast? = l.getLast? := by
  induction x with
  | nil => rfl
  | cons c x' ih =>
    rw [List.cons_append, getLast?_cons_of_ne_nil (by
      intro he
      rcases List.append_eq_nil.mp he with ⟨_, h2⟩
      exact h h2)]
    exact ih

theorem head?_append_left {x y : List Char} (h : x ≠ []) :
    (x ++ y).head? = x.head? := by
  cases x with
  | nil => exact absurd rfl h
  | cons c x' => rfl

theorem append_ne_nil_right {x l : List Char} (h : l ≠ []) : x ++ l ≠ [] := by
  intro he
  exact h (List.append_eq_nil.mp he).2

theorem splitLines_wf (s : List Char) : LinesWF (splitLines s) := by
  induction s with
  | nil => trivial
  | cons c s' ih =>
    rw [splitLines]
    by_cases hc : c = '\n'
    · rw [if_pos hc]
      exact ⟨List.cons_ne_nil _ _, ⟨[], by simp, Or.inr rfl⟩, fun _ => rfl, ih⟩
    · rw [if_neg hc]
      cases hsp : splitLines s' with
      | nil =>
        refine ⟨List.cons_ne_nil _ _, ⟨[c], ?_, Or.inl rfl⟩,
          fun h => absurd rfl h, trivial⟩
        intro hm
        rw [List.mem_singleton] at hm
        exact hc hm.symm
      | cons l ls =>
        rw [hsp] at ih
        obtain ⟨hl0, ⟨b, hbn, hbc⟩, hlast, hrest⟩ := ih
        refine ⟨List.cons_ne_nil _ _, ⟨c :: b, ?_, ?_⟩, ?_, hrest⟩
        · intro hm
          rcases List.mem_cons.mp hm with hm | hm
          · exact hc hm.symm
          · exact hbn hm
        · rcases hbc with hbc | hbc
          · exact Or.inl (by rw [hbc])
          · exact Or.inr (by rw [hbc, List.cons_append])
        · intro hne
          rw [getLast?_cons_of_ne_nil hl0]
          exact hlast hne

theorem joinAll_splitLines (s : List Char) : joinAll (splitLines s) = s := by
  induction s with
  | nil => rfl
  | cons c s' ih =>
    rw [splitLines]
    by_cases hc : c = '\n'
    · rw [if_pos hc, joinAll, ih, hc]
      rfl
    · rw [if_neg hc]
      cases hsp : splitLines s' with
      | nil =>
        rw [hsp, joinAll] at ih
        simp only [hsp]
        rw [joinAll, joinAll, ← ih]
        rfl
      | cons l ls =>
        rw [hsp, joinAll] at ih
        simp only [hsp]
        rw [joinAll, ← ih]
        rfl

theorem splitLines_ne_nil {s : List Char} (h : s ≠ []) : splitLines s ≠ [] := by
  cases s with
  | nil => exact absurd rfl h
  | cons c s' =>
    rw [splitLines]
    by_cases hc : c = '\n'
    · rw [if_pos hc]; exact List.cons_ne_nil _ _
    · rw [if_neg hc]
      cases splitLines s' with
      | nil => exact List.cons_ne_nil _ _
      | cons l ls => exact List.cons_ne_nil _ _

theorem splitLines_append_nl : ∀ (x y : List Char), x.getLast? = some '\n' →
    splitLines (x ++ y) = splitLines x ++ splitLines y := by
  intro x
  induction x with
  | nil => intro y h; simp at h
  | cons c x' ih =>
    intro y h
    cases x' with
    | nil =>
      have hc : c = '\n' := by
        rw [List.getLast?_singleton] at h
        exact Option.some.inj h
      subst hc
      rw [List.cons_append, List.nil_append, splitLines, if_pos rfl]
      conv_rhs => rw [splitLines, if_pos rfl]
      rfl
    | cons d x'' =>
      have hlast : (d :: x'').getLast? = some '\n' := by
        rw [← List.getLast?_cons_cons]
        exact h
      have ihy := ih y hlast
      rw [List.cons_append]
      by_cases hc : c = '\n'
      · rw [splitLines, if_pos hc, ihy]
        conv_rhs => rw [splitLines, if_pos hc]
        rfl
      · rw [splitLines, if_neg hc, ihy]
        cases hsp : splitLines (d :: x'') with
        | nil => exact absurd hsp (splitLines_ne_nil (List.cons_ne_nil _ _))
        | cons m ms =>
          conv_rhs => rw [splitLines, if_neg hc, hsp]
          rfl

theorem splitLines_nlfree {b : List Char} (hb : ¬ '\n' ∈ b) (hne : b ≠ []) :
    splitLines b = [b] := by
  induction b with
  | nil => exact absurd rfl hne
  | cons c b' ih =>
    have hc : ¬ c = '\n' := fun he => hb (he ▸ List.mem_cons_self c b')
    rw [splitLines, if_neg hc]
    cases b' with
    | nil => rfl
    | cons d b'' =>
      rw [ih (fun hm => hb (List.mem_cons_of_mem c hm)) (List.cons_ne_nil _ _)]

theorem splitLines_nlfree_nl {b : List Char} (hb : ¬ '\n' ∈ b) :
    splitLines (b ++ ['\n']) = [b ++ ['\n']] := by
  induction b with
  | nil => rfl
  | cons c b' ih =>
    have hc : ¬ c = '\n' := fun he => hb (he ▸ List.mem_cons_self c b')
    rw [List.cons_append, splitLines, if_neg hc,
      ih (fun hm => hb (List.mem_cons_of_mem c hm))]

theorem splitLines_oneLine {l : List Char} (hne : l ≠ []) (hsh : NLshape l) :
    splitLines l = [l] := by
  obtain ⟨b, hb, hcase⟩ := hsh
  rcases hcase with hcase | hcase
  · rw [hcase] at hne ⊢
    exact splitLines_nlfree hb hne
  · rw [hcase]
    exact splitLines_nlfree_nl hb

theorem endNL_cons (b : Bool) (c : Char) (t : List Char) :
    endNL b (c :: t) = endNL (c == '\n') t := rfl

theorem okFrom_append (b : Bool) (x y : List Char) :
    okFrom b (x ++ y) = (okFrom b x && okFrom (endNL b x) y) := by
  induction x generalizing b with
  | nil => simp [okFrom, endNL]
  | cons c x' ih =>
    rw [List.cons_append, okFrom, okFrom, ih (c == '\n'), endNL_cons,
      Bool.and_assoc]

theorem nlfree_okFrom {h : List Char} (hn : ¬ '\n' ∈ h) :
    okFrom false h = true ∧ endNL false h = false := by
  induction h with
  | nil => exact ⟨rfl, rfl⟩
  | cons c t ih =>
    have hc : (c == '\n') = false := by
      have : c ≠ '\n' := fun he => hn (he ▸ List.mem_cons_self c t)
      simp [this]
    obtain ⟨h1, h2⟩ := ih (fun hm => hn (List.mem_cons_of_mem c hm))
    constructor
    · rw [okFrom, hc, h1]
      rfl
    · rw [endNL_cons, hc, h2]

/-- Any line of `splitLines s` whose head is `C` must be the very first line,
with the scan started mid-line. -/
theorem okFrom_heads_aux : ∀ (s : List Char) (b : Bool), okFrom b s = true →
    ∀ (i : Nat) (l : List Char), (splitLines s).get? i = some l →
      l.head? = some 'C' → i = 0 ∧ b = false := by
  intro s
  induction s with
  | nil => intro b _ i l h; simp [splitLines] at h
  | cons c s' ih =>
    intro b hok i l hget hhead
    rw [okFrom] at hok
    rw [Bool.and_eq_true] at hok
    obtain ⟨hc1, hok'⟩ := hok
    rw [splitLines] at hget
    by_cases hc : c = '\n'
    · rw [if_pos hc] at hget
      cases i with
      | zero =>
        simp only [List.get?] at hget
        injection hget with hget
        rw [← hget] at hhead
        simp at hhead
      | succ j =>
        simp only [List.get?] at hget
        have := ih (c == '\n') hok' j l hget hhead
        rw [hc] at this
        simp at this
    · rw [if_neg hc] at hget
      cases hsp : splitLines s' with
      | nil =>
        rw [hsp] at hget
        cases i with
        | zero =>
          simp only [List.get?] at hget
          injection hget with hget
          rw [← hget] at hhead
          simp only [List.head?_cons, Option.some.injEq] at hhead
          subst hhead
          rcases Bool.or_eq_true_iff.mp hc1 with h1 | h1
          · refine ⟨rfl, ?_⟩
            cases b with
            | false => rfl
            | true => simp at h1
          · simp at h1
        | succ j =>
          simp only [List.get?] at hget
          simp at hget
      | cons m ms =>
        rw [hsp] at hget
        cases i with
        | zero =>
          simp only [List.get?] at hget
          injection hget with hget
          rw [← hget] at hhead
          simp only [List.head?_cons, Option.some.injEq] at hhead
          subst hhead
          rcases Bool.or_eq_true_iff.mp hc1 with h1 | h1
          · refine ⟨rfl, ?_⟩
            cases b with
            | false => rfl
            | true => simp at h1
          · simp at h1
        | succ j =>
          simp only [List.get?] at hget
          have hms : (splitLines s').get? (j + 1) = some l := by
            rw [hsp]
            simpa using hget
          have := ih (c == '\n') hok' (j + 1) l hms hhead
          simp at this

/-- If the whole text passes the scan started at a line start, no line of its
`readlines` split starts with `C`. -/
theorem okFrom_heads {s : List Char} (hok : okFrom true s = true) :
    ∀ l ∈ splitLines s, l.head? ≠ some 'C' := by
  intro l hl hhead
  obtain ⟨i, hi⟩ := List.mem_iff_get?.mp hl
  obtain ⟨_, hb⟩ := okFrom_heads_aux s true hok i l hi hhead
  simp at hb

/-- The anchored regex can only fire on a line starting with `C`. -/
theorem parse_none_head {l : List Char} (h : l.head? ≠ some 'C') :
    parseCreateIndex l = none := by
  cases l with
  | nil => rfl
  | cons x t =>
    have hx : ('C' == x) = false := by
      have : x ≠ 'C' := fun he => h (by rw [List.head?_cons, he])
      simp [this.symm]
    have hexp : expect (str "CREATE INDEX IF NOT EXISTS \"") (x :: t) = none := by
      unfold expect
      rw [if_neg ?hn]
      case hn =>
        show ¬ (str "CREATE INDEX IF NOT EXISTS \"").isPrefixOf (x :: t) = true
        have hred : (str "CREATE INDEX IF NOT EXISTS \"").isPrefixOf (x :: t) =
            (('C' == x) && (str "REATE INDEX IF NOT EXISTS \"").isPrefixOf t) := rfl
        rw [hred, hx]
        simp
    unfold parseCreateIndex
    rw [hexp]

theorem fix_id_of_parse_none {l : List Char} (h : parseCreateIndex l = none) :
    fix_index_creation l = l := by
  unfold fix_index_creation
  rw [h]

theorem stableAnyNext_of_parse_none {l : List Char}
    (h : parseCreateIndex l = none) : StableAnyNext l := by
  intro nxt
  unfold step
  by_cases hcond : (containsSub CImark l && !containsSub DOmark l) = true
  · rw [if_pos hcond]
    cases nxt with
    | none => exact fix_id_of_parse_none h
    | some n =>
      simp only []
      by_cases hdon : containsSub DOmark n = true
      · rw [if_pos hdon]
      · rw [if_neg hdon]
        exact fix_id_of_parse_none h
  · rw [if_neg hcond]

theorem processLines_eq_self {L : List (List Char)} (h : StableList L) :
    processLines L = L := by
  induction L with
  | nil => rfl
  | cons l rest ih =>
    obtain ⟨h1, h2⟩ := h
    rw [processLines, h1, ih h2]

theorem StableList_append {A B : List (List Char)}
    (hA : ∀ l ∈ A, StableAnyNext l) (hB : StableList B) : StableList (A ++ B) := by
  induction A with
  | nil => exact hB
  | cons a A' ih =>
    exact ⟨hA a (List.mem_cons_self a A') _,
      ih (fun l hl => hA l (List.mem_cons_of_mem a hl))⟩

/-- Soundness of the one-shot regex: a match decomposes the line. -/
theorem parseCreateIndex_sound {l i t cs : List Char}
    (h : parseCreateIndex l = some (i, t, cs)) :
    ∃ rem, l = str "CREATE INDEX IF NOT EXISTS \"" ++ i ++ str "\" ON \"" ++ t ++
      str "\" USING btree (" ++ cs ++ str ");--> statement-breakpoint" ++ rem := by
  unfold parseCreateIndex at h
  cases h1 : expect (str "CREATE INDEX IF NOT EXISTS \"") l with
  | none => rw [h1] at h; simp at h
  | some r1 =>
    rw [h1] at h
    simp only [] at h
    by_cases he1 : (r1.takeWhile (· != '"')).isEmpty = true
    · rw [if_pos he1] at h; simp at h
    · rw [if_neg he1] at h
      cases h2 : expect (str "\" ON \"") (r1.dropWhile (· != '"')) with
      | none => rw [h2] at h; simp at h
      | some r2 =>
        rw [h2] at h
        simp only [] at h
        by_cases he2 : (r2.takeWhile (· != '"')).isEmpty = true
        · rw [if_pos he2] at h; simp at h
        · rw [if_neg he2] at h
          cases h3 : expect (str "\" USING btree (") (r2.dropWhile (· != '"')) with
          | none => rw [h3] at h; simp at h
          | some r3 =>
            rw [h3] at h
            simp only [] at h
            by_cases he3 : (r3.takeWhile (· != ')')).isEmpty = true
            · rw [if_pos he3] at h; simp at h
            · rw [if_neg he3] at h
              cases h4 : expect (str ");--> statement-breakpoint") (r3.dropWhile (· != ')')) with
              | none => rw [h4] at h; simp at h
              | some r4 =>
                rw [h4] at h
                simp only [Option.some.injEq, Prod.mk.injEq] at h
                obtain ⟨hi, ht, hcs⟩ := h
                refine ⟨r4, ?_⟩
                have hs1 := expect_eq_some h1
                have hd1 := expect_eq_some h2
                have hd2 := expect_eq_some h3
                have hd3 := expect_eq_some h4
                rw [hs1, ← List.takeWhile_append_dropWhile (· != '"') r1, hd1,
                  ← List.takeWhile_append_dropWhile (· != '"') r2, hd2,
                  ← List.takeWhile_append_dropWhile (· != ')') r3, hd3, hi, ht, hcs]
                simp [List.append_assoc]

/-- A middle factor of a line followed by a nonempty rest contains no
newline. -/
theorem mid_nlfree {l x m y : List Char} (hsh : NLshape l) (hl : l = x ++ m ++ y)
    (hy : y ≠ []) : ¬ '\n' ∈ m := by
  obtain ⟨b, hbn, hbc⟩ := hsh
  intro hm
  rcases hbc with hbc | hbc
  · rw [hbc] at hl
    exact hbn (by
      rw [hl]
      exact List.mem_append.mpr (Or.inl (List.mem_append.mpr (Or.inr hm))))
  · rw [hbc] at hl
    have hdl : (x ++ m ++ y).dropLast = (x ++ m) ++ y.dropLast :=
      List.dropLast_append_of_ne_nil (x ++ m) hy
    rw [← hl] at hdl
    rw [List.dropLast_concat] at hdl
    exact hbn (by
      rw [hdl]
      exact List.mem_append.mpr (Or.inl (List.mem_append.mpr (Or.inr hm))))

theorem mem_dropTrailing_sub {p : Char → Bool} {l : List Char} {x : Char}
    (h : x ∈ dropTrailingWhile p l) : x ∈ l := by
  unfold dropTrailingWhile at h
  have h1 := List.mem_reverse.mp h
  have h2 := (List.dropWhile_sublist p).subset h1
  exact List.mem_reverse.mp h2

theorem mem_strip_sub {l : List Char} {x : Char}
    (h : x ∈ stripQuotes (stripWS l)) : x ∈ l := by
  unfold stripQuotes stripWS at h
  have h1 := mem_dropTrailing_sub h
  have h2 := (List.dropWhile_sublist _).subset h1
  have h3 := mem_dropTrailing_sub h2
  exact (List.dropWhile_sublist _).subset h3

theorem mem_splitComma_sub : ∀ {cs piece : List Char}, piece ∈ splitComma cs →
    ∀ x ∈ piece, x ∈ cs := by
  intro cs
  induction cs with
  | nil =>
    intro piece hp x hx
    rw [splitComma] at hp
    rw [List.mem_singleton] at hp
    subst hp
    simp at hx
  | cons c t ih =>
    intro piece hp x hx
    rw [splitComma] at hp
    by_cases hc : c = ','
    · rw [if_pos hc] at hp
      rcases List.mem_cons.mp hp with hp | hp
      · subst hp; simp at hx
      · exact List.mem_cons_of_mem c (ih hp x hx)
    · rw [if_neg hc] at hp
      cases hsp : splitComma t with
      | nil =>
        rw [hsp] at hp
        rw [List.mem_singleton] at hp
        subst hp
        rcases List.mem_cons.mp hx with hx | hx
        · subst hx; exact List.mem_cons_self x t
        · simp at hx
      | cons m ms =>
        rw [hsp] at hp
        rcases List.mem_cons.mp hp with hp | hp
        · subst hp
          rcases List.mem_cons.mp hx with hx | hx
          · subst hx; exact List.mem_cons_self x t
          · exact List.mem_cons_of_mem c (ih (hsp ▸ List.mem_cons_self m ms) x hx)
        · exact List.mem_cons_of_mem c (ih (hsp ▸ List.mem_cons_of_mem m hp) x hx)

theorem mem_columnList_sub {cs d : List Char} (hd : d ∈ columnList cs) :
    ∀ x ∈ d, x ∈ cs := by
  intro x hx
  unfold columnList at hd
  obtain ⟨piece, hpiece, hmap⟩ := List.mem_map.mp hd
  rw [← hmap] at hx
  exact mem_splitComma_sub hpiece x (mem_strip_sub hx)

theorem nl_not_mem_whereClause {cols : List (List Char)}
    (h : ∀ d ∈ cols, ¬ '\n' ∈ d) : ¬ '\n' ∈ whereClause cols := by
  induction cols with
  | nil => simp [whereClause, joinSep]
  | cons c cs' ih =>
    cases cs' with
    | nil =>
      show ¬ '\n' ∈ str "column_name = '" ++ c ++ str "'"
      intro hm
      rcases List.mem_append.mp hm with hm | hm
      · rcases List.mem_append.mp hm with hm | hm
        · simp [str] at hm
        · exact h c (List.mem_cons_self c []) hm
      · simp [str] at hm
    | cons c2 rest =>
      have hsh : whereClause (c :: c2 :: rest) =
          (str "column_name = '" ++ c ++ str "'") ++ str " AND " ++
            whereClause (c2 :: rest) := by
        unfold whereClause
        simp only [List.map, joinSep]
      rw [hsh]
      intro hm
      rcases List.mem_append.mp hm with hm | hm
      · rcases List.mem_append.mp hm with hm | hm
        · rcases List.mem_append.mp hm with hm | hm
          · rcases List.mem_append.mp hm with hm | hm
            · simp [str] at hm
            · exact h c (List.mem_cons_self c (c2 :: rest)) hm
          · simp [str] at hm
        · simp [str] at hm
      · exact ih (fun d hd => h d (List.mem_cons_of_mem c hd)) hm

theorem wc_nlfree {cs : List Char} (h : ¬ '\n' ∈ cs) :
    ¬ '\n' ∈ whereClause (columnList cs) :=
  nl_not_mem_whereClause (fun _ hd hm => h (mem_columnList_sub hd '\n' hm))

set_option maxRecDepth 100000 in
theorem blockOf_decomp (i t cs : List Char) :
    blockOf i t cs = blkNL i t cs ++ tailBlock := by
  unfold blockOf blkNL tailBlock
  have h8 : str " table, skipping index creation';\n    END IF;\nEND$$;--> statement-breakpoint" = str " table, skipping index creation';\n    END IF;\n" ++ str "END$$;--> statement-breakpoint" := by rfl
  rw [h8]
  simp [List.append_assoc]

set_option maxRecDepth 100000 in
theorem blkNL_last (i t cs : List Char) :
    (blkNL i t cs).getLast? = some (Char.ofNat 10) := by
  unfold blkNL
  rw [List.getLast?_append_of_ne_nil _ (by decide : str " table, skipping index creation';\n    END IF;\n" ≠ ([] : List Char))]
  rfl

theorem okFrom_glue {x y : List Char} {b : Bool} (hx : okFrom b x = true)
    (he : endNL b x = false) (hy : okFrom false y = true) :
    okFrom b (x ++ y) = true := by
  rw [okFrom_append, hx, he, hy]
  rfl

set_option maxRecDepth 100000 in
theorem okFrom_blk (b : Bool) {i t cs : List Char}
    (hni : ¬ '\n' ∈ i) (hnt : ¬ '\n' ∈ t) (hncs : ¬ '\n' ∈ cs) :
    okFrom b (blkNL i t cs) = true := by
  have hwc := wc_nlfree hncs
  obtain ⟨hta, htb⟩ := nlfree_okFrom hnt
  obtain ⟨hia, hib⟩ := nlfree_okFrom hni
  obtain ⟨hca, hcb⟩ := nlfree_okFrom hncs
  obtain ⟨hwa, hwb⟩ := nlfree_okFrom hwc
  have hass : blkNL i t cs = str "DO $$\nBEGIN\n    IF EXISTS (\n        SELECT 1\n        FROM information_schema.columns\n        WHERE table_name = '" ++ (t ++ (str "'\n        AND (" ++ (whereClause (columnList cs) ++ (str ")\n    ) THEN\n        CREATE INDEX IF NOT EXISTS \"" ++ (i ++ (str "\"\n        ON \"" ++ (t ++ (str "\" USING btree (" ++ (cs ++ (str ");\n        RAISE NOTICE 'Created index " ++ (i ++ (str "';\n    ELSE\n        RAISE NOTICE 'Column(s) do not exist in " ++ (t ++ (str " table, skipping index creation';\n    END IF;\n")))))))))))))) := by
    unfold blkNL
    simp [List.append_assoc]
  have h15 : okFrom false (str " table, skipping index creation';\n    END IF;\n") = true := by decide
  have h14 : okFrom false (t ++ (str " table, skipping index creation';\n    END IF;\n")) = true :=
    okFrom_glue hta htb h15
  have h13 : okFrom false (str "';\n    ELSE\n        RAISE NOTICE 'Column(s) do not exist in " ++ (t ++ (str " table, skipping index creation';\n    END IF;\n"))) = true :=
    okFrom_glue (by decide) (by decide) h14
  have h12 : okFrom false (i ++ (str "';\n    ELSE\n        RAISE NOTICE 'Column(s) do not exist in " ++ (t ++ (str " table, skipping index creation';\n    END IF;\n")))) = true :=
    okFrom_glue hia hib h13
  have h11 : okFrom false (str ");\n        RAISE NOTICE 'Created index " ++ (i ++ (str "';\n    ELSE\n        RAISE NOTICE 'Column(s) do not exist in " ++ (t ++ (str " table, skipping index creation';\n    END IF;\n"))))) = true :=
    okFrom_glue (by decide) (by decide) h12
  have h10 : okFrom false (cs ++ (str ");\n        RAISE NOTICE 'Created index " ++ (i ++ (str "';\n    ELSE\n        RAISE NOTICE 'Column(s) do not exist in " ++ (t ++ (str " table, skipping index creation';\n    END IF;\n")))))) = true :=
    okFrom_glue hca hcb h11
  have h9 : okFrom false (str "\" USING btree (" ++ (cs ++ (str ");\n        RAISE NOTICE 'Created index " ++ (i ++ (str "';\n    ELSE\n        RAISE NOTICE 'Column(s) do not exist in " ++ (t ++ (str " table, skipping index creation';\n    END IF;\n"))))))) = true :=
    okFrom_glue (by decide) (by decide) h10
  have h8 : okFrom false (t ++ (str "\" USING btree (" ++ (cs ++ (str ");\n        RAISE NOTICE 'Created index " ++ (i ++ (str "';\n    ELSE\n        RAISE NOTICE 'Column(s) do not exist in " ++ (t ++ (str " table, skipping index creation';\n    END IF;\n")))))))) = true :=
    okFrom_glue hta htb h9
  have h7 : okFrom false (str "\"\n        ON \"" ++ (t ++ (str "\" USING btree (" ++ (cs ++ (str ");\n        RAISE NOTICE 'Created index " ++ (i ++ (str "';\n    ELSE\n        RAISE NOTICE 'Column(s) do not exist in " ++ (t ++ (str " table, skipping index creation';\n    END IF;\n"))))))))) = true :=
    okFrom_glue (by decide) (by decide) h8
  have h6 : okFrom false (i ++ (str "\"\n        ON \"" ++ (t ++ (str "\" USING btree (" ++ (cs ++ (str ");\n        RAISE NOTICE 'Created index " ++ (i ++ (str "';\n    ELSE\n        RAISE NOTICE 'Column(s) do not exist in " ++ (t ++ (str " table, skipping index creation';\n    END IF;\n")))))))))) = true :=
    okFrom_glue hia hib h7
  have h5 : okFrom false (str ")\n    ) THEN\n        CREATE INDEX IF NOT EXISTS \"" ++ (i ++ (str "\"\n        ON \"" ++ (t ++ (str "\" USING btree (" ++ (cs ++ (str ");\n        RAISE NOTICE 'Created index " ++ (i ++ (str "';\n    ELSE\n        RAISE NOTICE 'Column(s) do not exist in " ++ (t ++ (str " table, skipping index creation';\n    END IF;\n"))))))))))) = true :=
    okFrom_glue (by decide) (by decide) h6
  have h4 : okFrom false (whereClause (columnList cs) ++ (str ")\n    ) THEN\n        CREATE INDEX IF NOT EXISTS \"" ++ (i ++ (str "\"\n        ON \"" ++ (t ++ (str "\" USING btree (" ++ (cs ++ (str ");\n        RAISE NOTICE 'Created index " ++ (i ++ (str "';\n    ELSE\n        RAISE NOTICE 'Column(s) do not exist in " ++ (t ++ (str " table, skipping index creation';\n    END IF;\n")))))))))))) = true :=
    okFrom_glue hwa hwb h5
  have h3 : okFrom false (str "'\n        AND (" ++ (whereClause (columnList cs) ++ (str ")\n    ) THEN\n        CREATE INDEX IF NOT EXISTS \"" ++ (i ++ (str "\"\n        ON \"" ++ (t ++ (str "\" USING btree (" ++ (cs ++ (str ");\n        RAISE NOTICE 'Created index " ++ (i ++ (str "';\n    ELSE\n        RAISE NOTICE 'Column(s) do not exist in " ++ (t ++ (str " table, skipping index creation';\n    END IF;\n"))))))))))))) = true :=
    okFrom_glue (by decide) (by decide) h4
  have h2 : okFrom false (t ++ (str "'\n        AND (" ++ (whereClause (columnList cs) ++ (str ")\n    ) THEN\n        CREATE INDEX IF NOT EXISTS \"" ++ (i ++ (str "\"\n        ON \"" ++ (t ++ (str "\" USING btree (" ++ (cs ++ (str ");\n        RAISE NOTICE 'Created index " ++ (i ++ (str "';\n    ELSE\n        RAISE NOTICE 'Column(s) do not exist in " ++ (t ++ (str " table, skipping index creation';\n    END IF;\n")))))))))))))) = true :=
    okFrom_glue hta htb h3
  have h1 : okFrom b (str "DO $$\nBEGIN\n    IF EXISTS (\n        SELECT 1\n        FROM information_schema.columns\n        WHERE table_name = '" ++ (t ++ (str "'\n        AND (" ++ (whereClause (columnList cs) ++ (str ")\n    ) THEN\n        CREATE INDEX IF NOT EXISTS \"" ++ (i ++ (str "\"\n        ON \"" ++ (t ++ (str "\" USING btree (" ++ (cs ++ (str ");\n        RAISE NOTICE 'Created index " ++ (i ++ (str "';\n    ELSE\n        RAISE NOTICE 'Column(s) do not exist in " ++ (t ++ (str " table, skipping index creation';\n    END IF;\n"))))))))))))))) = true :=
    okFrom_glue (by cases b <;> decide) (by cases b <;> decide) h2
  rw [hass]
  exact h1

theorem append_ne_nil_left {x l : List Char} (h : x ≠ []) : x ++ l ≠ [] := by
  intro he
  exact h (List.append_eq_nil.mp he).1

set_option maxRecDepth 100000 in
theorem blkNL_ne_nil (i t cs : List Char) : blkNL i t cs ≠ [] := by
  unfold blkNL
  exact append_ne_nil_right (by decide)

set_option maxRecDepth 100000 in
theorem parse_none_tail (x : List Char) : parseCreateIndex (tailBlock ++ x) = none := by
  apply parse_none_head
  rw [head?_append_left (by decide : tailBlock ≠ ([] : List Char))]
  decide

theorem NLshape_pre {pre l : List Char} (hp : ¬ '\n' ∈ pre) (hsh : NLshape l) :
    NLshape (pre ++ l) := by
  obtain ⟨b, hb, hc⟩ := hsh
  refine ⟨pre ++ b, ?_, ?_⟩
  · intro hm
    rcases List.mem_append.mp hm with hm | hm
    · exact hp hm
    · exact hb hm
  · rcases hc with h | h
    · exact Or.inl (by rw [h])
    · exact Or.inr (by rw [h, List.append_assoc])

set_option maxRecDepth 100000 in
theorem blk_lines_stable {pre i t cs : List Char}
    (hpre : pre = [] ∨ pre = tailBlock)
    (hni : ¬ '\n' ∈ i) (hnt : ¬ '\n' ∈ t) (hncs : ¬ '\n' ∈ cs) :
    ∀ l ∈ splitLines (pre ++ blkNL i t cs), StableAnyNext l := by
  intro l hl
  apply stableAnyNext_of_parse_none
  apply parse_none_head
  refine okFrom_heads ?_ l hl
  rcases hpre with h | h
  · subst h
    rw [List.nil_append]
    exact okFrom_blk true hni hnt hncs
  · subst h
    rw [okFrom_append, (by decide : okFrom true tailBlock = true),
      (by decide : endNL true tailBlock = false),
      okFrom_blk false hni hnt hncs]
    rfl

theorem step_id_of_DO {l : List Char} (h : containsSub DOmark l = true)
    (n : Option (List Char)) : step l n = l := by
  unfold step
  rw [h]
  simp

theorem step_keep_of_DO_next {l nxt : List Char}
    (h : containsSub DOmark nxt = true) : step l (some nxt) = l := by
  unfold step
  by_cases hcond : (containsSub CImark l && !containsSub DOmark l) = true
  · rw [if_pos hcond]
    simp only []
    rw [if_pos h]
  · rw [if_neg hcond]

theorem head_join_DO {nxt : List Char} {rest' : List (List Char)}
    (hwf : LinesWF (nxt :: rest')) (hDO : containsSub DOmark nxt = true) :
    (splitLines (joinAll (processLines (nxt :: rest')))).head? = some nxt := by
  obtain ⟨hne, hsh, hlast, _⟩ := hwf
  rw [processLines, joinAll, step_id_of_DO hDO]
  by_cases hJ : joinAll (processLines rest') = []
  · rw [hJ, List.append_nil, splitLines_oneLine hne hsh]
    rfl
  · have hr : rest' ≠ [] := by
      intro h
      rw [h] at hJ
      exact hJ rfl
    rw [splitLines_append_nl nxt _ (hlast hr), splitLines_oneLine hne hsh]
    rfl

set_option maxRecDepth 100000 in
theorem kept_case {l pre J : List Char}
    (hne : l ≠ []) (hsh : NLshape l) (hlast : J ≠ [] → l.getLast? = some '\n')
    (hpre : pre = [] ∨ pre = tailBlock)
    (hstable : StableList (splitLines J))
    (hstep2 : step l (splitLines J).head? = l) :
    StableList (splitLines (pre ++ (l ++ J))) := by
  have hprenl : ¬ '\n' ∈ pre := by
    rcases hpre with h | h <;> subst h
    · simp
    · decide
  have hpl_ne : pre ++ l ≠ [] := append_ne_nil_right hne
  have hpl_sh : NLshape (pre ++ l) := NLshape_pre hprenl hsh
  by_cases hJ : J = []
  · subst hJ
    rw [List.append_nil, splitLines_oneLine hpl_ne hpl_sh]
    refine ⟨?_, trivial⟩
    rcases hpre with h | h
    · subst h
      rw [List.nil_append]
      exact hstep2
    · subst h
      exact stableAnyNext_of_parse_none (parse_none_tail l) _
  · have hl' : l.getLast? = some '\n' := hlast hJ
    have hsplit : splitLines (pre ++ (l ++ J)) = (pre ++ l) :: splitLines J := by
      rw [← List.append_assoc,
        splitLines_append_nl (pre ++ l) J (by rw [getLast?_append_right hne]; exact hl'),
        splitLines_oneLine hpl_ne hpl_sh]
      rfl
    rw [hsplit]
    refine ⟨?_, hstable⟩
    rcases hpre with h | h
    · subst h
      rw [List.nil_append]
      exact hstep2
    · subst h
      exact stableAnyNext_of_parse_none (parse_none_tail l) _

set_option maxRecDepth 100000 in
theorem stable_master : ∀ L : List (List Char), LinesWF L →
    ∀ pre : List Char, pre = [] ∨ pre = tailBlock →
    StableList (splitLines (pre ++ joinAll (processLines L))) := by
  intro L
  induction L with
  | nil =>
    intro _ pre hpre
    rcases hpre with h | h <;> subst h
    · exact trivial
    · simp only [processLines, joinAll, List.append_nil]
      rw [splitLines_nlfree (by decide) (by decide)]
      exact ⟨stableAnyNext_of_parse_none (parse_none_head (by decide)) _, trivial⟩
  | cons l rest ih =>
    intro hwf pre hpre
    obtain ⟨hne, hsh, hlast, hwfr⟩ := hwf
    rw [processLines, joinAll]
    have hlastJ : joinAll (processLines rest) ≠ [] → l.getLast? = some '\n' := by
      intro hJ
      apply hlast
      intro h
      rw [h] at hJ
      exact hJ rfl
    have hstJ : StableList (splitLines (joinAll (processLines rest))) := by
      have := ih hwfr [] (Or.inl rfl)
      rwa [List.nil_append] at this
    cases hpl : parseCreateIndex l with
    | none =>
      have hst := stableAnyNext_of_parse_none hpl
      rw [hst rest.head?]
      exact kept_case hne hsh hlastJ hpre hstJ (hst _)
    | some itc =>
      obtain ⟨i, t, cs⟩ := itc
      obtain ⟨rem, hldec⟩ := parseCreateIndex_sound hpl
      have hdeci : l = str "CREATE INDEX IF NOT EXISTS \"" ++ i ++
          (str "\" ON \"" ++ (t ++ (str "\" USING btree (" ++
            (cs ++ (str ");--> statement-breakpoint" ++ rem))))) := by
        rw [hldec]
        simp [List.append_assoc]
      have hni : ¬ '\n' ∈ i := mid_nlfree hsh hdeci (append_ne_nil_left (by decide))
      have hdect : l = (str "CREATE INDEX IF NOT EXISTS \"" ++ i ++ str "\" ON \"") ++
          t ++ (str "\" USING btree (" ++
            (cs ++ (str ");--> statement-breakpoint" ++ rem))) := by
        rw [hldec]
        simp [List.append_assoc]
      have hnt : ¬ '\n' ∈ t := mid_nlfree hsh hdect (append_ne_nil_left (by decide))
      have hdecc : l = (str "CREATE INDEX IF NOT EXISTS \"" ++ i ++ str "\" ON \"" ++
          t ++ str "\" USING btree (") ++ cs ++
          (str ");--> statement-breakpoint" ++ rem) := by
        rw [hldec]
        simp [List.append_assoc]
      have hncs : ¬ '\n' ∈ cs := mid_nlfree hsh hdecc (append_ne_nil_left (by decide))
      by_cases hcond : (containsSub CImark l && !containsSub DOmark l) = true
      · cases hnext : rest.head? with
        | some nxt =>
          by_cases hDO : containsSub DOmark nxt = true
          · rw [step_keep_of_DO_next hDO]
            cases rest with
            | nil => simp at hnext
            | cons r rest' =>
              have hr : r = nxt := by
                rw [List.head?_cons] at hnext
                exact Option.some.inj hnext
              subst hr
              exact kept_case hne hsh hlastJ hpre hstJ
                (by rw [head_join_DO hwfr hDO]; exact step_keep_of_DO_next hDO)
          · have hout : step l (some nxt) = blockOf i t cs := by
              unfold step
              rw [if_pos hcond]
              simp only []
              rw [if_neg hDO]
              unfold fix_index_creation
              rw [hpl]
            rw [hout, blockOf_decomp]
            have hre : pre ++ (blkNL i t cs ++ tailBlock ++ joinAll (processLines rest)) =
                (pre ++ blkNL i t cs) ++ (tailBlock ++ joinAll (processLines rest)) := by
              simp [List.append_assoc]
            rw [hre, splitLines_append_nl (pre ++ blkNL i t cs) _
              (by rw [getLast?_append_right (blkNL_ne_nil i t cs)]; exact blkNL_last i t cs)]
            exact StableList_append (blk_lines_stable hpre hni hnt hncs)
              (ih hwfr tailBlock (Or.inr rfl))
        | none =>
          have hout : step l (none : Option (List Char)) = blockOf i t cs := by
            unfold step
            rw [if_pos hcond]
            simp only []
            unfold fix_index_creation
            rw [hpl]
          rw [hout, blockOf_decomp]
          have hre : pre ++ (blkNL i t cs ++ tailBlock ++ joinAll (processLines rest)) =
              (pre ++ blkNL i t cs) ++ (tailBlock ++ joinAll (processLines rest)) := by
            simp [List.append_assoc]
          rw [hre, splitLines_append_nl (pre ++ blkNL i t cs) _
            (by rw [getLast?_append_right (blkNL_ne_nil i t cs)]; exact blkNL_last i t cs)]
          exact StableList_append (blk_lines_stable hpre hni hnt hncs)
            (ih hwfr tailBlock (Or.inr rfl))
      · have hst2 : ∀ n, step l n = l := by
          intro n
          unfold step
          rw [if_neg hcond]
        rw [hst2 rest.head?]
        exact kept_case hne hsh hlastJ hpre hstJ (hst2 _)

/-- C3: the one-shot whole-file patcher `main` is idempotent: applying it a
second time to the file produced by a first application leaves the file
unchanged; in particular an index statement already converted to a `DO $$`
conditional block is never converted (wrapped) again, since every line of a
converted block either fails the anchored regex or is protected by the
`DO $$` lookahead. -/
theorem c3_patchFile_idempotent (s : List Char) :
    patchFile (patchFile s) = patchFile s := by
  unfold patchFile
  have hst : StableList (splitLines (joinAll (processLines (splitLines s)))) := by
    have := stable_master (splitLines s) (splitLines_wf s) [] (Or.inl rfl)
    rwa [List.nil_append] at this
  rw [processLines_eq_self hst, joinAll_splitLines]
